import Mathlib

/-!
# Verification of the BOS multi-timeframe strategy tracker

Shallow embedding of `src/strategies/bos-strategy.js` (the BOS Structure
Tracker) together with the parts of the indicator engine
(`Indicators.computeAll` and the configuration defaults) that `analyze()`
consumes.

JavaScript numbers are embedded as exact rationals.  So that concrete
executions can be checked by kernel reduction (`decide`), the embedding
uses its own rational type `Q` — a numerator/positive-denominator pair
normalized with a structurally recursive gcd — together with a proved
order-and-field-respecting interpretation `qVal : Q → ℚ` used by the
algebraic theorems.  Candle timestamps are integers.  A JavaScript runtime
exception (reading a property of `undefined`) is embedded as `none` / an
unchanged state, depending on how much of the tracker state had already
been mutated when the throw happens.

The EMA/MACD/RSI/ATR kernels live in the external `technicalindicators`
npm package, which is not part of this repository; they are modelled from
the spec's description of the indicator engine (§4.2).  Every guard around
those kernels (the length checks, the falsy-config defaulting) is taken
directly from the repository source.
-/

set_option maxRecDepth 8000

/-! ## A kernel-computable exact rational type -/

/-- Euclid's algorithm with explicit fuel, so that the kernel can reduce
it (the library `Nat.gcd` is defined by well-founded recursion, which the
kernel cannot unfold). -/
def ngcdAux : ℕ → ℕ → ℕ → ℕ
  | 0, _, b => b
  | _ + 1, 0, b => b
  | fuel + 1, a + 1, b => ngcdAux fuel (b % (a + 1)) (a + 1)

/-- Kernel-reducible gcd. -/
def ngcd (a b : ℕ) : ℕ := ngcdAux (a + 1) a b

theorem ngcdAux_eq_gcd : ∀ (fuel a b : ℕ), a < fuel → ngcdAux fuel a b = Nat.gcd a b := by
  intro fuel
  induction fuel with
  | zero => intro a b h; omega
  | succ f ih =>
    intro a b h
    match a with
    | 0 => simp [ngcdAux]
    | a' + 1 =>
      have hlt : b % (a' + 1) < f := by
        have h1 : b % (a' + 1) < a' + 1 := Nat.mod_lt _ (Nat.succ_pos a')
        omega
      rw [ngcdAux, ih _ _ hlt, Nat.gcd_succ]

theorem ngcd_eq_gcd (a b : ℕ) : ngcd a b = Nat.gcd a b :=
  ngcdAux_eq_gcd _ _ _ (Nat.lt_succ_self a)

/-- An exact rational: integer numerator over a positive integer
denominator.  All smart-constructor-produced values are in lowest terms,
but no theorem depends on that. -/
structure Q where
  num : ℤ
  den : ℤ
  pos : 0 < den

theorem Q.ext {a b : Q} (hn : a.num = b.num) (hd : a.den = b.den) : a = b := by
  cases a; cases b; cases hn; cases hd; rfl

instance : DecidableEq Q := fun a b =>
  if h : a.num = b.num ∧ a.den = b.den then isTrue (Q.ext h.1 h.2)
  else isFalse (fun e => h (by cases e; exact ⟨rfl, rfl⟩))

/-- Normalize `n / d` for `0 < d`. -/
def qRaw (n d : ℤ) (h : 0 < d) : Q :=
  ⟨n / ((ngcd n.natAbs d.natAbs : ℕ) : ℤ), d / ((ngcd n.natAbs d.natAbs : ℕ) : ℤ), by
    have hg0 : 0 < ((ngcd n.natAbs d.natAbs : ℕ) : ℤ) := by
      rw [ngcd_eq_gcd]
      exact_mod_cast Nat.gcd_pos_of_pos_right _ (by omega : 0 < d.natAbs)
    have hdvd : ((ngcd n.natAbs d.natAbs : ℕ) : ℤ) ∣ d :=
      Int.natCast_dvd.mpr (by rw [ngcd_eq_gcd]; exact Nat.gcd_dvd_right _ _)
    have hcancel : d / ((ngcd n.natAbs d.natAbs : ℕ) : ℤ)
        * ((ngcd n.natAbs d.natAbs : ℕ) : ℤ) = d := Int.ediv_mul_cancel hdvd
    rcases le_or_lt (d / ((ngcd n.natAbs d.natAbs : ℕ) : ℤ)) 0 with hle | hlt
    · nlinarith
    · exact hlt⟩

/-- The canonical constructor: `qMk n d` is the rational `n / d`
(`0` when `d = 0`, a case that never arises from the embedded code). -/
def qMk (n d : ℤ) : Q :=
  if h : 0 < d then qRaw n d h
  else if h' : d < 0 then qRaw (-n) (-d) (by omega)
  else ⟨0, 1, one_pos⟩

def qOfNat (n : ℕ) : Q := ⟨(n : ℤ), 1, one_pos⟩

instance (n : ℕ) : OfNat Q n := ⟨qOfNat n⟩

instance : OfScientific Q :=
  ⟨fun m b e => if b then qMk (m : ℤ) ((10 ^ e : ℕ) : ℤ) else qMk ((m * 10 ^ e : ℕ) : ℤ) 1⟩

/-- JS `a + b`. -/
def qAdd (a b : Q) : Q := qMk (a.num * b.den + b.num * a.den) (a.den * b.den)

/-- JS `a - b`. -/
def qSub (a b : Q) : Q := qMk (a.num * b.den - b.num * a.den) (a.den * b.den)

/-- JS unary minus. -/
def qNeg (a : Q) : Q := ⟨-a.num, a.den, a.pos⟩

/-- JS `a * b`. -/
def qMul (a b : Q) : Q := qMk (a.num * b.num) (a.den * b.den)

/-- JS `a / b` (division by `0` yields `0`; every division in the embedded
code is guarded so the divisor is nonzero). -/
def qDiv (a b : Q) : Q := qMk (a.num * b.den) (a.den * b.num)

/-- JS `Math.abs`. -/
def qAbs (a : Q) : Q := ⟨((a.num.natAbs : ℕ) : ℤ), a.den, a.pos⟩

/-- JS `a <= b` (numeric comparison by cross-multiplication; denominators
are positive). -/
def qLe (a b : Q) : Bool := decide (a.num * b.den ≤ b.num * a.den)

/-- JS `a < b`. -/
def qLt (a b : Q) : Bool := decide (a.num * b.den < b.num * a.den)

/-- JS `a === b` on numbers. -/
def qEqb (a b : Q) : Bool := decide (a.num * b.den = b.num * a.den)

/-- JS `Math.max` of two numbers. -/
def qMax (a b : Q) : Q := if qLe a b then b else a

/-- JS `Math.min` of two numbers. -/
def qMin (a b : Q) : Q := if qLe a b then a else b

/-- Interpretation into the mathematical rationals, used by the algebraic
theorems. -/
def qVal (a : Q) : ℚ := (a.num : ℚ) / (a.den : ℚ)

theorem qVal_qRaw (n d : ℤ) (h : 0 < d) : qVal (qRaw n d h) = (n : ℚ) / (d : ℚ) := by
  unfold qVal qRaw
  have hg0 : 0 < ((ngcd n.natAbs d.natAbs : ℕ) : ℤ) := by
    rw [ngcd_eq_gcd]
    exact_mod_cast Nat.gcd_pos_of_pos_right _ (by omega : 0 < d.natAbs)
  have hdvdn : ((ngcd n.natAbs d.natAbs : ℕ) : ℤ) ∣ n :=
    Int.natCast_dvd.mpr (by rw [ngcd_eq_gcd]; exact Nat.gcd_dvd_left _ _)
  have hdvdd : ((ngcd n.natAbs d.natAbs : ℕ) : ℤ) ∣ d :=
    Int.natCast_dvd.mpr (by rw [ngcd_eq_gcd]; exact Nat.gcd_dvd_right _ _)
  have hgq : (((ngcd n.natAbs d.natAbs : ℕ) : ℤ) : ℚ) ≠ 0 := by
    exact_mod_cast ne_of_gt hg0
  have hdq : ((d : ℤ) : ℚ) ≠ 0 := by exact_mod_cast ne_of_gt h
  rw [Int.cast_div hdvdn hgq, Int.cast_div hdvdd hgq, div_div_div_eq,
    mul_comm ((n : ℚ)) _, mul_div_mul_left _ _ hgq]

theorem qVal_qMk (n d : ℤ) : qVal (qMk n d) = (n : ℚ) / (d : ℚ) := by
  unfold qMk
  split
  · rw [qVal_qRaw]
  · split
    · rw [qVal_qRaw]; push_cast; rw [neg_div_neg_eq]
    · have hd : d = 0 := by omega
      subst hd
      simp [qVal]

theorem qden_pos (a : Q) : (0 : ℚ) < (a.den : ℚ) := by exact_mod_cast a.pos

theorem qden_ne (a : Q) : ((a.den : ℤ) : ℚ) ≠ 0 := ne_of_gt (qden_pos a)

theorem qVal_qAdd (a b : Q) : qVal (qAdd a b) = qVal a + qVal b := by
  unfold qAdd
  rw [qVal_qMk, qVal, qVal, div_add_div _ _ (qden_ne a) (qden_ne b)]
  push_cast
  ring_nf

theorem qVal_qSub (a b : Q) : qVal (qSub a b) = qVal a - qVal b := by
  unfold qSub
  rw [qVal_qMk, qVal, qVal, div_sub_div _ _ (qden_ne a) (qden_ne b)]
  push_cast
  ring_nf

theorem qVal_qNeg (a : Q) : qVal (qNeg a) = -qVal a := by
  unfold qNeg qVal
  push_cast
  ring

theorem qVal_qMul (a b : Q) : qVal (qMul a b) = qVal a * qVal b := by
  unfold qMul
  rw [qVal_qMk, qVal, qVal, div_mul_div_comm]
  push_cast
  ring_nf

theorem qVal_qAbs (a : Q) : qVal (qAbs a) = |qVal a| := by
  unfold qAbs qVal
  rw [abs_div, abs_of_pos (qden_pos a)]
  congr 1
  push_cast [Int.cast_natAbs]
  rfl

theorem qVal_qDiv (a b : Q) (hb : b.num ≠ 0) : qVal (qDiv a b) = qVal a / qVal b := by
  unfold qDiv
  have hbq : ((b.num : ℤ) : ℚ) ≠ 0 := by exact_mod_cast hb
  rw [qVal_qMk, qVal, qVal, div_div_div_eq]
  push_cast
  ring_nf

theorem qLe_iff (a b : Q) : qLe a b = true ↔ qVal a ≤ qVal b := by
  unfold qLe qVal
  rw [decide_eq_true_eq, div_le_div_iff₀ (qden_pos a) (qden_pos b)]
  exact_mod_cast Iff.rfl

theorem qLt_iff (a b : Q) : qLt a b = true ↔ qVal a < qVal b := by
  unfold qLt qVal
  rw [decide_eq_true_eq, div_lt_div_iff₀ (qden_pos a) (qden_pos b)]
  exact_mod_cast Iff.rfl

theorem qEqb_iff (a b : Q) : qEqb a b = true ↔ qVal a = qVal b := by
  unfold qEqb qVal
  rw [decide_eq_true_eq, div_eq_div_iff (qden_ne a) (qden_ne b)]
  exact_mod_cast Iff.rfl

theorem qVal_qMax (a b : Q) : qVal (qMax a b) = max (qVal a) (qVal b) := by
  unfold qMax
  split
  · next h => rw [max_eq_right ((qLe_iff a b).mp h)]
  · next h =>
      have hnot : ¬ qVal a ≤ qVal b := fun hc => h ((qLe_iff a b).mpr hc)
      rw [max_eq_left (le_of_not_le hnot)]

theorem qVal_qMin (a b : Q) : qVal (qMin a b) = min (qVal a) (qVal b) := by
  unfold qMin
  split
  · next h => rw [min_eq_left ((qLe_iff a b).mp h)]
  · next h =>
      have hnot : ¬ qVal a ≤ qVal b := fun hc => h ((qLe_iff a b).mpr hc)
      rw [min_eq_right (le_of_not_le hnot)]

theorem qVal_qOfNat (n : ℕ) : qVal (qOfNat n) = (n : ℚ) := by
  unfold qOfNat qVal
  push_cast
  ring

/-! ## Data model and indicator engine -/

/-- A candlestick as fetched from the exchange: `{ time, open, high, low,
close, volume }`.  The `open` field is renamed `opn` because `open` is a
Lean keyword. -/
structure Candle where
  time : ℤ
  opn : Q
  high : Q
  low : Q
  close : Q
  volume : Q
deriving DecidableEq

instance : Inhabited Candle := ⟨⟨0, 0, 0, 0, 0, 0⟩⟩

/-- The indicator configuration consumed by `Indicators.computeAll`
(`config.indicators` in the configuration module).  `ema200` and
`spikeMultiplier` are read with JavaScript `||` defaulting
(`config.indicators.ema200 || 200`, `spikeMultiplier || 1.3`), so they are
embedded as options, with `0` treated as falsy. -/
structure Config where
  emaFast : ℕ
  emaSlow : ℕ
  ema200 : Option ℕ
  macdFast : ℕ
  macdSlow : ℕ
  macdSignal : ℕ
  rsiPeriod : ℕ
  atrPeriod : ℕ
  volumePeriod : ℕ
  spikeMultiplier : Option Q
deriving DecidableEq

/-- `config.indicators.ema200 || 200`: JavaScript `||` falls through on the
falsy values `undefined` and `0`. -/
def ema200Period (cfg : Config) : ℕ :=
  match cfg.ema200 with
  | none => 200
  | some n => if n = 0 then 200 else n

/-- `config.indicators.volume.spikeMultiplier || 1.3`. -/
def spikeMult (cfg : Config) : Q :=
  match cfg.spikeMultiplier with
  | none => 1.3
  | some q => if qEqb q 0 then 1.3 else q

/-- One exponential-smoothing step with multiplier `2/(period+1)`. -/
def emaStep (period : ℕ) (e v : Q) : Q :=
  qAdd e (qMul (qSub v e) (qDiv 2 (qOfNat (period + 1))))

/-- `Indicators.calculateEMA`.  The `values.length < period` guard is from
the source; the smoothing kernel is the external `technicalindicators`
`EMA.calculate`, modelled from the spec (§4.2): standard exponential
smoothing seeded with the first price, multiplier `2/(period+1)`. -/
def calculateEMA (values : List Q) (period : ℕ) : Option Q :=
  if values.length < period then none
  else
    match values with
    | [] => none
    | v :: vs => some (vs.foldl (emaStep period) v)

/-- The shape of `Indicators.calculateMACD`'s non-null result. -/
structure MACDOut where
  macd : Q
  signal : Q
  histogram : Q
  bullishCross : Bool
  bearishCross : Bool
deriving DecidableEq

/-- Second-to-last element of a list (JS `arr[arr.length - 2]`). -/
def secondLast {α : Type} (l : List α) : Option α :=
  l.dropLast.getLast?

/-- `Indicators.calculateMACD`.  The `values.length < slow + signal` guard
and the crossover logic on the last two points are from the source; the
MACD/signal series themselves come from the external package and are
modelled from the spec (§4.2): `EMA(fast) − EMA(slow)` as the MACD line,
its own `EMA(signal)` as the signal line. -/
def calculateMACD (values : List Q) (fast slow signalP : ℕ) : Option MACDOut :=
  if values.length < slow + signalP then none
  else
    let macdSeries := (List.range values.length).filterMap (fun i =>
      match calculateEMA (values.take (i + 1)) fast,
            calculateEMA (values.take (i + 1)) slow with
      | some f, some sl => some (qSub f sl)
      | _, _ => none)
    let sigSeries := (List.range macdSeries.length).filterMap (fun j =>
      calculateEMA (macdSeries.take (j + 1)) signalP)
    if sigSeries.length < 2 then none
    else
      match macdSeries.getLast?, secondLast macdSeries,
            sigSeries.getLast?, secondLast sigSeries with
      | some m1, some m0, some s1, some s0 =>
        some { macd := m1, signal := s1, histogram := qSub m1 s1,
               bullishCross := qLe m0 s0 && qLt s1 m1,
               bearishCross := qLe s0 m0 && qLt m1 s1 }
      | _, _, _, _ => none

/-- `Indicators.calculateRSI`.  Length guard from the source; the kernel is
modelled from the spec (§4.2): classic average-gain/average-loss over the
trailing window, `100` when the average loss is zero. -/
def calculateRSI (values : List Q) (period : ℕ) : Option Q :=
  if values.length < period then none
  else
    let diffs := (values.zip values.tail).map (fun p => qSub p.2 p.1)
    let recent := diffs.drop (diffs.length - period)
    let gains := (recent.map (fun d => if qLt 0 d then d else 0)).foldl qAdd 0
    let losses := (recent.map (fun d => if qLt d 0 then qNeg d else 0)).foldl qAdd 0
    if qEqb losses 0 then some 100
    else some (qSub 100 (qDiv 100 (qAdd 1 (qDiv gains losses))))

/-- True ranges of consecutive candle pairs. -/
def trueRanges (candles : List Candle) : List Q :=
  (candles.zip candles.tail).map (fun p =>
    qMax (qSub p.2.high p.2.low)
      (qMax (qAbs (qSub p.2.high p.1.close)) (qAbs (qSub p.2.low p.1.close))))

/-- `Indicators.calculateATR`.  Length guard from the source; the kernel is
modelled from the spec (§4.2): average true range over high/low/close. -/
def calculateATR (candles : List Candle) (period : ℕ) : Option Q :=
  if candles.length < period then none
  else
    let recent := (trueRanges candles).drop ((trueRanges candles).length - period)
    if recent.length = 0 then none
    else some (qDiv (recent.foldl qAdd 0) (qOfNat recent.length))

/-- `Indicators.calculateAverageVolume` (source-faithful). -/
def calculateAverageVolume (candles : List Candle) (period : ℕ) : Option Q :=
  if candles.length < period then none
  else
    some (qDiv (((candles.drop (candles.length - period)).map (·.volume)).foldl qAdd 0)
      (qOfNat period))

/-- `Indicators.isVolumeSpiking` (source-faithful). -/
def isVolumeSpiking (candles : List Candle) (period : ℕ) (mult : Q) : Bool :=
  if candles.length < period + 1 then false
  else
    match candles.getLast?, calculateAverageVolume candles.dropLast period with
    | some c, some avg => qLt (qMul avg mult) c.volume
    | _, _ => false

/-- `Math.max` over the `high`s of a non-empty candle list (`0` for the
empty list, which never occurs at the call sites). -/
def maxHighOf (l : List Candle) : Q :=
  match l with
  | [] => 0
  | c :: cs => cs.foldl (fun m x => qMax m x.high) c.high

/-- `Math.min` over the `low`s of a non-empty candle list. -/
def minLowOf (l : List Candle) : Q :=
  match l with
  | [] => 0
  | c :: cs => cs.foldl (fun m x => qMin m x.low) c.low

/-- `Indicators.findSwingLow` (source-faithful; trailing-window minimum,
default lookback 10). -/
def indFindSwingLow (candles : List Candle) (lookback : ℕ := 10) : Option Q :=
  if candles.length < lookback then none
  else some (minLowOf (candles.drop (candles.length - lookback)))

/-- `Indicators.findSwingHigh` (source-faithful). -/
def indFindSwingHigh (candles : List Candle) (lookback : ℕ := 10) : Option Q :=
  if candles.length < lookback then none
  else some (maxHighOf (candles.drop (candles.length - lookback)))

/-- `Indicators.checkBullishBreakout` (source-faithful; the computed
`percentAboveResistance` local is dead code in the source and is omitted). -/
def checkBullishBreakout (candles : List Candle) (lookback : ℕ := 10) : Bool :=
  if candles.length < lookback + 1 then false
  else
    match candles.getLast?, secondLast candles with
    | some cur, some prev =>
      let resistance := maxHighOf ((candles.dropLast).drop (candles.length - 1 - lookback))
      qLt resistance cur.close ||
        (qLe prev.close resistance && qLe (qMul resistance 0.998) cur.close)
    | _, _ => false

/-- `Indicators.checkBearishBreakdown` (source-faithful). -/
def checkBearishBreakdown (candles : List Candle) (lookback : ℕ := 10) : Bool :=
  if candles.length < lookback + 1 then false
  else
    match candles.getLast?, secondLast candles with
    | some cur, some prev =>
      let support := minLowOf ((candles.dropLast).drop (candles.length - 1 - lookback))
      qLt cur.close support ||
        (qLe support prev.close && qLe cur.close (qMul support 1.002))
    | _, _ => false

/-- The `IndicatorSnapshot` produced per timeframe by
`Indicators.computeAll`. -/
structure Snapshot where
  emaFast : Option Q
  emaSlow : Option Q
  ema200 : Option Q
  macd : Option MACDOut
  rsi : Option Q
  atr : Option Q
  avgVolume : Option Q
  volumeSpike : Bool
  swingLow : Option Q
  swingHigh : Option Q
  bullishBreakout : Bool
  bearishBreakdown : Bool
  currentPrice : Q
deriving DecidableEq

/-- `Indicators.computeAll`.  On an empty candle list the source reads
`candles[candles.length - 1].close`, i.e. a property of `undefined`, which
throws a `TypeError`; that is the `none` case. -/
def computeAll (candles : List Candle) (cfg : Config) : Option Snapshot :=
  match candles.getLast? with
  | none => none
  | some lastC =>
    let closes := candles.map (·.close)
    some {
      emaFast := calculateEMA closes cfg.emaFast
      emaSlow := calculateEMA closes cfg.emaSlow
      ema200 := calculateEMA closes (ema200Period cfg)
      macd := calculateMACD closes cfg.macdFast cfg.macdSlow cfg.macdSignal
      rsi := calculateRSI closes cfg.rsiPeriod
      atr := calculateATR candles cfg.atrPeriod
      avgVolume := calculateAverageVolume candles cfg.volumePeriod
      volumeSpike := isVolumeSpiking candles cfg.volumePeriod (spikeMult cfg)
      swingLow := indFindSwingLow candles 10
      swingHigh := indFindSwingHigh candles 10
      bullishBreakout := checkBullishBreakout candles 10
      bearishBreakdown := checkBearishBreakdown candles 10
      currentPrice := lastC.close
    }

/-! ## The BOS Structure Tracker -/

/-- Trend direction on the higher timeframe (`'BULLISH'` / `'BEARISH'`). -/
inductive Trend where
  | BULLISH : Trend
  | BEARISH : Trend
deriving DecidableEq

/-- An impulse `{ start, end, size }`; `end` is a Lean keyword, so the
field is named `iEnd`. -/
structure Impulse where
  start : Q
  iEnd : Q
  size : Q
deriving DecidableEq

/-- A structure break record as built by `detectBOS4H` / `detectBOS5M`:
`{ detected, type, breakLevel, impulse, timestamp }`. -/
structure BOS where
  detected : Bool
  type : Trend
  breakLevel : Q
  impulse : Impulse
  timestamp : ℤ
deriving DecidableEq

/-- A retracement zone `{ low, high, type }`. -/
structure Zone where
  low : Q
  high : Q
  type : Trend
deriving DecidableEq

/-- The entry zone `{ low, high }` stored in `entryZone5M`. -/
structure EntryZone where
  low : Q
  high : Q
deriving DecidableEq

/-- The tracker's persistent `StrategyState`. -/
structure StrategyState where
  trend4H : Option Trend
  bos4H : Option BOS
  retracementZone4H : Option Zone
  inRetracementZone : Bool
  bos5M : Option BOS
  entryZone5M : Option EntryZone
  entryProposed : Bool
  entryPrice : Option Q
  stopLoss : Option Q
  takeProfit : Option Q
deriving DecidableEq

/-- The state built by the constructor (all null/false). -/
def initialState : StrategyState :=
  { trend4H := none, bos4H := none, retracementZone4H := none,
    inRetracementZone := false, bos5M := none, entryZone5M := none,
    entryProposed := false, entryPrice := none, stopLoss := none,
    takeProfit := none }

/-- `BOSStrategy.resetState`: clears every field back to its initial
null/false value. -/
def resetState : StrategyState :=
  { trend4H := none, bos4H := none, retracementZone4H := none,
    inRetracementZone := false, bos5M := none, entryZone5M := none,
    entryProposed := false, entryPrice := none, stopLoss := none,
    takeProfit := none }

/-- `BOSStrategy.analyzeTrend4H`: compare the latest close to EMA200.  The
source tests `!indicators.ema200`, which is also true for the falsy value
`0`.  (When `ema200` is non-null the candle list is necessarily non-empty,
so the `candles[candles.length-1]` read cannot throw; the `none` fallback
for an empty list is unreachable.) -/
def analyzeTrend4H (candles : List Candle) (ind : Snapshot) : Option Trend :=
  match ind.ema200 with
  | none => none
  | some e =>
    if qEqb e 0 then none
    else
      match candles.getLast? with
      | none => none
      | some c =>
        if qLt e c.close then some Trend.BULLISH
        else if qLt c.close e then some Trend.BEARISH
        else none

/-- `BOSStrategy.findLastSwingLow` (default lookback 5): scan for the
lowest local minimum whose `lookback` neighbours on both sides have lows no
smaller; fall back to the overall minimum.  The accumulator starts at
`Infinity` in the source, embedded as `none`. -/
def findLastSwingLow (candles : List Candle) (lookback : ℕ := 5) : Q :=
  if candles.length < lookback then minLowOf candles
  else
    let found := candles.enum.foldl (fun acc (p : ℕ × Candle) =>
      if lookback ≤ p.1 ∧ p.1 + lookback < candles.length then
        let isSwing :=
          (((candles.take p.1).drop (p.1 - lookback)).all
            (fun c => qLe p.2.low c.low)) &&
          (((candles.drop (p.1 + 1)).take lookback).all
            (fun c => qLe p.2.low c.low))
        if isSwing then
          match acc with
          | none => some p.2.low
          | some m => if qLt p.2.low m then some p.2.low else acc
        else acc
      else acc) none
    match found with
    | none => minLowOf candles
    | some m => m

/-- `BOSStrategy.findLastSwingHigh` (default lookback 5). -/
def findLastSwingHigh (candles : List Candle) (lookback : ℕ := 5) : Q :=
  if candles.length < lookback then maxHighOf candles
  else
    let found := candles.enum.foldl (fun acc (p : ℕ × Candle) =>
      if lookback ≤ p.1 ∧ p.1 + lookback < candles.length then
        let isSwing :=
          (((candles.take p.1).drop (p.1 - lookback)).all
            (fun c => qLe c.high p.2.high)) &&
          (((candles.drop (p.1 + 1)).take lookback).all
            (fun c => qLe c.high p.2.high))
        if isSwing then
          match acc with
          | none => some p.2.high
          | some m => if qLt m p.2.high then some p.2.high else acc
        else acc
      else acc) none
    match found with
    | none => maxHighOf candles
    | some m => m

/-- `BOSStrategy.detectBOS4H`.  `lookback = 20`; the structure window is
`candles.slice(-lookback-2, -1)`, i.e. the last `lookback+2` candles minus
the current one (so it includes the previous candle).  With no trend or
not enough candles, `bos4H` is cleared; when the break condition fails,
the previous value is kept unchanged. -/
def detectBOS4H (candles : List Candle) (trend : Option Trend)
    (prev : Option BOS) : Option BOS :=
  match trend with
  | none => none
  | some t =>
    if candles.length < 20 + 2 then none
    else
      let current := candles.getLastD default
      let previous := (candles.dropLast).getLastD default
      let structureCandles := (candles.dropLast).drop (candles.length - (20 + 2))
      match t with
      | Trend.BULLISH =>
        let swingHigh := maxHighOf structureCandles
        if qLt swingHigh current.close && qLe previous.close swingHigh then
          let swingLow := findLastSwingLow structureCandles 5
          some { detected := true, type := Trend.BULLISH, breakLevel := swingHigh,
                 impulse := { start := swingLow, iEnd := current.high,
                              size := qSub current.high swingLow },
                 timestamp := current.time }
        else prev
      | Trend.BEARISH =>
        let swingLow := minLowOf structureCandles
        if qLt current.close swingLow && qLe swingLow previous.close then
          let swingHigh := findLastSwingHigh structureCandles 5
          some { detected := true, type := Trend.BEARISH, breakLevel := swingLow,
                 impulse := { start := swingHigh, iEnd := current.low,
                              size := qSub swingHigh current.low },
                 timestamp := current.time }
        else prev

/-- `BOSStrategy.detectBOS5M`.  `lookback = 10`; unlike the 4H variant the
length guard precedes the trend dispatch, and a `null` trend leaves the
previous `bos5M` untouched (neither `if` branch fires). -/
def detectBOS5M (candles : List Candle) (trend : Option Trend)
    (prev : Option BOS) : Option BOS :=
  if candles.length < 10 + 2 then none
  else
    let current := candles.getLastD default
    let previous := (candles.dropLast).getLastD default
    let structureCandles := (candles.dropLast).drop (candles.length - (10 + 2))
    match trend with
    | some Trend.BULLISH =>
      let swingHigh := maxHighOf structureCandles
      if qLt swingHigh current.close && qLe previous.close swingHigh then
        let swingLow := findLastSwingLow structureCandles 5
        some { detected := true, type := Trend.BULLISH, breakLevel := swingHigh,
               impulse := { start := swingLow, iEnd := current.high,
                            size := qSub current.high swingLow },
               timestamp := current.time }
      else prev
    | some Trend.BEARISH =>
      let swingLow := minLowOf structureCandles
      if qLt current.close swingLow && qLe swingLow previous.close then
        let swingHigh := findLastSwingHigh structureCandles 5
        some { detected := true, type := Trend.BEARISH, breakLevel := swingLow,
               impulse := { start := swingHigh, iEnd := current.low,
                            size := qSub swingHigh current.low },
               timestamp := current.time }
      else prev
    | none => prev

/-- `BOSStrategy.calculateRetracementZone4H`: the 50%/61.8% retracement of
the stored 4H impulse (for BULLISH the zone lies below the impulse end:
`high := fib50`, `low := fib618`; mirrored upward for BEARISH). -/
def calculateRetracementZone4H (b : BOS) : Zone :=
  match b.type with
  | Trend.BULLISH =>
    { high := qSub b.impulse.iEnd (qMul b.impulse.size 0.5),
      low := qSub b.impulse.iEnd (qMul b.impulse.size 0.618),
      type := Trend.BULLISH }
  | Trend.BEARISH =>
    { low := qAdd b.impulse.iEnd (qMul b.impulse.size 0.5),
      high := qAdd b.impulse.iEnd (qMul b.impulse.size 0.618),
      type := Trend.BEARISH }

/-- Step 3 of `analyze`: recompute the zone only when `bos4H` is non-null
and detected, otherwise keep the old zone. -/
def applyRetracementZone (b : Option BOS) (old : Option Zone) : Option Zone :=
  match b with
  | some bb => if bb.detected then some (calculateRetracementZone4H bb) else old
  | none => old

/-- `BOSStrategy.checkRetracementZone`: inclusive membership of the current
price in the zone; `false` whenever the zone is null. -/
def checkRetracementZone (price : Q) (zone : Option Zone) : Bool :=
  match zone with
  | none => false
  | some z => qLe z.low price && qLe price z.high

/-- `BOSStrategy.calculateEntryZone5M`: entry at the 50% level, stop at the
61.8% level buffered by 5% of the impulse size away from the entry,
take-profit at twice the risk distance; marks `entryProposed`. -/
def calculateEntryZone5M (b : BOS) (s : StrategyState) : StrategyState :=
  match b.type with
  | Trend.BULLISH =>
    let fib50 := qSub b.impulse.iEnd (qMul b.impulse.size 0.5)
    let fib618 := qSub b.impulse.iEnd (qMul b.impulse.size 0.618)
    let sl := qSub fib618 (qMul b.impulse.size 0.05)
    { s with entryZone5M := some { low := fib618, high := fib50 },
             entryPrice := some fib50,
             stopLoss := some sl,
             takeProfit := some (qAdd fib50 (qMul (qSub fib50 sl) 2)),
             entryProposed := true }
  | Trend.BEARISH =>
    let fib50 := qAdd b.impulse.iEnd (qMul b.impulse.size 0.5)
    let fib618 := qAdd b.impulse.iEnd (qMul b.impulse.size 0.618)
    let sl := qAdd fib618 (qMul b.impulse.size 0.05)
    { s with entryZone5M := some { low := fib50, high := fib618 },
             entryPrice := some fib50,
             stopLoss := some sl,
             takeProfit := some (qSub fib50 (qMul (qSub sl fib50) 2)),
             entryProposed := true }

/-- Step 6 of `analyze`: propose an entry once the 5M break is detected and
no entry has been proposed yet. -/
def applyEntry (s : StrategyState) : StrategyState :=
  match s.bos5M with
  | some b5 =>
    if b5.detected = true ∧ s.entryProposed = false then calculateEntryZone5M b5 s
    else s
  | none => s

/-- Steps 1–5 of `analyze`: trend, 4H break, retracement zone, zone
occupancy, and the 5M confirmation break (only evaluated while in the
zone).  `indicators5M` is passed to `detectBOS5M` in the source but never
read there. -/
def pipelineBase (s : StrategyState) (c4 c5 : List Candle)
    (ind4H : Snapshot) : StrategyState :=
  let trend := analyzeTrend4H c4 ind4H
  let bos4 := detectBOS4H c4 trend s.bos4H
  let zone := applyRetracementZone bos4 s.retracementZone4H
  let inZone := checkRetracementZone ind4H.currentPrice zone
  { trend4H := trend, bos4H := bos4, retracementZone4H := zone,
    inRetracementZone := inZone,
    bos5M := if inZone then detectBOS5M c5 trend s.bos5M else s.bos5M,
    entryZone5M := s.entryZone5M, entryProposed := s.entryProposed,
    entryPrice := s.entryPrice, stopLoss := s.stopLoss,
    takeProfit := s.takeProfit }

/-- The full state mutation performed by one `analyze` call (steps 1–6). -/
def pipelineState (s : StrategyState) (c4 c5 : List Candle)
    (ind4H : Snapshot) : StrategyState :=
  applyEntry (pipelineBase s c4 c5 ind4H)

/-- JavaScript `Number.prototype.toFixed(2)`: round the magnitude to the
nearest hundredth (ties rounded up) and print with two decimals.
`⌊|q|·100 + 1/2⌋ = (200·|num| + den) / (2·den)` in integer division. -/
def toFixed2 (q : Q) : String :=
  let n : ℤ := (200 * ((q.num.natAbs : ℕ) : ℤ) + q.den) / (2 * q.den)
  let sign := if q.num < 0 ∧ n ≠ 0 then "-" else ""
  sign ++ toString (n / 100) ++ "." ++
    (if (n % 100).toNat < 10 then "0" else "") ++ toString (n % 100).toNat

/-- A signal response as produced by `createSignalResponse`.  In the source
the successful responses spread `indicators4H` and add
`entryPrice`/`stopLoss`/`takeProfit` on top; the extra keys are embedded as
`entryInfo` (absent on failure responses). -/
structure SignalResponse where
  signal : Bool
  type : String
  reasons : List String
  indicators : Snapshot
  entryInfo : Option (Q × Q × Q)
deriving DecidableEq

/-- `BaseStrategy.createSignalResponse`, with the optional spread keys of
the success path as a fifth argument. -/
def createSignalResponse (signal : Bool) (ty : String) (reasons : List String)
    (ind : Snapshot) (entryInfo : Option (Q × Q × Q)) : SignalResponse :=
  { signal := signal, type := ty, reasons := reasons, indicators := ind,
    entryInfo := entryInfo }

/-- `BOSStrategy.checkLongEntry`: the ordered checklist over the mutated
state.  The only way the source can throw here is `toFixed` on a null
`entryPrice`/`stopLoss`/`takeProfit` while `entryProposed` is set (a state
unreachable through `analyze`/`resetState`); that throw is the `none`
case. -/
def checkLongEntry (s : StrategyState) (ind : Snapshot) : Option SignalResponse :=
  if s.trend4H ≠ some Trend.BULLISH then
    some (createSignalResponse false "LONG" ["✗ Tendencia 4H no es alcista"] ind none)
  else
    let rs1 := ["✓ Tendencia 4H alcista (Cierre > EMA200)"]
    match s.bos4H with
    | none => some (createSignalResponse false "LONG"
        (rs1 ++ ["✗ No hay BOS alcista en 4H"]) ind none)
    | some b =>
      if b.detected = false then
        some (createSignalResponse false "LONG"
          (rs1 ++ ["✗ No hay BOS alcista en 4H"]) ind none)
      else
        let rs2 := rs1 ++ ["✓ BOS 4H detectado (Break: $" ++ toFixed2 b.breakLevel ++ ")"]
        match s.retracementZone4H with
        | none => some (createSignalResponse false "LONG"
            (rs2 ++ ["✗ Zona de retroceso 4H no calculada"]) ind none)
        | some z =>
          let rs3 := rs2 ++
            ["✓ Zona retroceso 4H: $" ++ toFixed2 z.low ++ " - $" ++ toFixed2 z.high]
          if s.inRetracementZone = false then
            some (createSignalResponse false "LONG"
              (rs3 ++ ["✗ Precio no está en zona de retroceso 4H"]) ind none)
          else
            let rs4 := rs3 ++ ["✓ Precio en zona de retroceso 4H (50-61.8%)"]
            match s.bos5M with
            | none => some (createSignalResponse false "LONG"
                (rs4 ++ ["✗ Esperando confirmación BOS en 5M"]) ind none)
            | some b5 =>
              if b5.detected = false then
                some (createSignalResponse false "LONG"
                  (rs4 ++ ["✗ Esperando confirmación BOS en 5M"]) ind none)
              else
                let rs5 := rs4 ++ ["✓ BOS 5M confirmado (confirmación alcista)"]
                if s.entryProposed = false then
                  some (createSignalResponse false "LONG"
                    (rs5 ++ ["✗ Zona de entrada 5M no calculada"]) ind none)
                else
                  match s.entryPrice, s.stopLoss, s.takeProfit with
                  | some e, some sl, some tp =>
                    some (createSignalResponse true "LONG"
                      (rs5 ++ ["✓ Entrada propuesta: $" ++ toFixed2 e ++ " | SL: $"
                        ++ toFixed2 sl ++ " | TP: $" ++ toFixed2 tp])
                      ind (some (e, sl, tp)))
                  | _, _, _ => none

/-- `BOSStrategy.checkShortEntry` (mirror of the long checklist). -/
def checkShortEntry (s : StrategyState) (ind : Snapshot) : Option SignalResponse :=
  if s.trend4H ≠ some Trend.BEARISH then
    some (createSignalResponse false "SHORT" ["✗ Tendencia 4H no es bajista"] ind none)
  else
    let rs1 := ["✓ Tendencia 4H bajista (Cierre < EMA200)"]
    match s.bos4H with
    | none => some (createSignalResponse false "SHORT"
        (rs1 ++ ["✗ No hay BOS bajista en 4H"]) ind none)
    | some b =>
      if b.detected = false then
        some (createSignalResponse false "SHORT"
          (rs1 ++ ["✗ No hay BOS bajista en 4H"]) ind none)
      else
        let rs2 := rs1 ++ ["✓ BOS 4H detectado (Break: $" ++ toFixed2 b.breakLevel ++ ")"]
        match s.retracementZone4H with
        | none => some (createSignalResponse false "SHORT"
            (rs2 ++ ["✗ Zona de retroceso 4H no calculada"]) ind none)
        | some z =>
          let rs3 := rs2 ++
            ["✓ Zona retroceso 4H: $" ++ toFixed2 z.low ++ " - $" ++ toFixed2 z.high]
          if s.inRetracementZone = false then
            some (createSignalResponse false "SHORT"
              (rs3 ++ ["✗ Precio no está en zona de retroceso 4H"]) ind none)
          else
            let rs4 := rs3 ++ ["✓ Precio en zona de retroceso 4H (50-61.8%)"]
            match s.bos5M with
            | none => some (createSignalResponse false "SHORT"
                (rs4 ++ ["✗ Esperando confirmación BOS en 5M"]) ind none)
            | some b5 =>
              if b5.detected = false then
                some (createSignalResponse false "SHORT"
                  (rs4 ++ ["✗ Esperando confirmación BOS en 5M"]) ind none)
              else
                let rs5 := rs4 ++ ["✓ BOS 5M confirmado (confirmación bajista)"]
                if s.entryProposed = false then
                  some (createSignalResponse false "SHORT"
                    (rs5 ++ ["✗ Zona de entrada 5M no calculada"]) ind none)
                else
                  match s.entryPrice, s.stopLoss, s.takeProfit with
                  | some e, some sl, some tp =>
                    some (createSignalResponse true "SHORT"
                      (rs5 ++ ["✓ Entrada propuesta: $" ++ toFixed2 e ++ " | SL: $"
                        ++ toFixed2 sl ++ " | TP: $" ++ toFixed2 tp])
                      ind (some (e, sl, tp)))
                  | _, _, _ => none

/-- The object returned by `BOSStrategy.analyze`.  Its `timestamp` field is
`new Date().toISOString()` in the source — a wall-clock reading, embedded
here as the explicit clock input of the call. -/
structure AnalyzeResult where
  indicators4H : Snapshot
  indicators5M : Snapshot
  longSignal : SignalResponse
  shortSignal : SignalResponse
  state : StrategyState
  timestamp : ℤ
  strategy : String
deriving DecidableEq

/-- One `analyze(candles4H, candles5M, config)` call at wall-clock `now`.
Returns the optional result (`none` = a JavaScript exception escaped) and
the tracker state as left behind by the call: unchanged when
`computeIndicators` throws on an empty candle list before any mutation,
fully mutated when only the signal-assembly step throws. -/
def analyzeRun (s : StrategyState) (c4 c5 : List Candle) (cfg : Config)
    (now : ℤ) : Option AnalyzeResult × StrategyState :=
  match computeAll c4 cfg with
  | none => (none, s)
  | some ind4H =>
    match computeAll c5 cfg with
    | none => (none, s)
    | some ind5M =>
      let s' := pipelineState s c4 c5 ind4H
      (match checkLongEntry s' ind4H, checkShortEntry s' ind4H with
       | some long, some short =>
         some { indicators4H := ind4H, indicators5M := ind5M,
                longSignal := long, shortSignal := short, state := s',
                timestamp := now, strategy := "BOSStrategy" }
       | _, _ => none,
       s')

/-- The inputs of one `analyze` call. -/
structure Input where
  c4 : List Candle
  c5 : List Candle
  cfg : Config
  now : ℤ

/-- The state left behind by one `analyze` call. -/
def stepState (s : StrategyState) (inp : Input) : StrategyState :=
  (analyzeRun s inp.c4 inp.c5 inp.cfg inp.now).2

/-- The state after a sequence of `analyze` calls. -/
def runSteps (s : StrategyState) (l : List Input) : StrategyState :=
  l.foldl stepState s

/-- States reachable from construction through `analyze()` and
`resetState()` calls. -/
inductive Reachable : StrategyState → Prop
  | init : Reachable initialState
  | step (s : StrategyState) (inp : Input) : Reachable s → Reachable (stepState s inp)
  | reset (s : StrategyState) : Reachable s → Reachable resetState

/-! ## Concrete inputs used by witnesses and counterexamples -/

/-- A candle with `open = close` and unit volume. -/
def mkC (t : ℤ) (h l c : Q) : Candle :=
  { time := t, opn := c, high := h, low := l, close := c, volume := 1 }

/-- A witness configuration: EMA200 period 2 (the source makes the trend
EMA period configurable), every other indicator period large enough that
the short witness candle lists leave those indicators null. -/
def cfg0 : Config :=
  { emaFast := 100, emaSlow := 100, ema200 := some 2, macdFast := 12,
    macdSlow := 26, macdSignal := 9, rsiPeriod := 50, atrPeriod := 50,
    volumePeriod := 50, spikeMultiplier := some 1.3 }

/-- 22 4H candles realizing the spec's concrete break scenario: structure
window with max high 103 and an interior swing low 95, previous close
102.5, current candle closing 104 with high 114 (so the 4H close sits
inside the resulting retracement zone). -/
def bigC4 : List Candle :=
  [mkC 0 103 96 100, mkC 1 103 96 100, mkC 2 103 96 100, mkC 3 103 96 100,
   mkC 4 103 96 100, mkC 5 103 96 100, mkC 6 103 96 100, mkC 7 103 96 100,
   mkC 8 103 96 100, mkC 9 103 96 100, mkC 10 103 95 100, mkC 11 103 96 100,
   mkC 12 103 96 100, mkC 13 103 96 100, mkC 14 103 96 100, mkC 15 103 96 100,
   mkC 16 103 96 100, mkC 17 103 96 100, mkC 18 103 96 100, mkC 19 103 96 100,
   mkC 20 103 96 102.5, mkC 21 114 100 104]

/-- 12 5M candles realizing the spec's concrete confirmation scenario: the
impulse `{start: 98, end: 99.5, size: 1.5}`. -/
def bigC5 : List Candle :=
  [mkC 0 99 98.5 98.6, mkC 1 99 98.5 98.6, mkC 2 99 98.5 98.6,
   mkC 3 99 98.5 98.6, mkC 4 99 98.5 98.6, mkC 5 99 98 98.6,
   mkC 6 99 98.5 98.6, mkC 7 99 98.5 98.6, mkC 8 99 98.5 98.6,
   mkC 9 99 98.5 98.6, mkC 10 99 98.5 98.6, mkC 11 99.5 99 99.2]

/-- A single well-formed candle (enough to make `computeAll` succeed while
leaving every indicator with a long lookback null). -/
def cA : Candle := mkC 0 1 1 1

/-- 22 4H candles that flip the trend to BEARISH (last close 90 below the
EMA) without triggering a bearish break (lows at 80 stay unbroken). -/
def flipC4 : List Candle :=
  [mkC 0 103 80 100, mkC 1 103 80 100, mkC 2 103 80 100, mkC 3 103 80 100,
   mkC 4 103 80 100, mkC 5 103 80 100, mkC 6 103 80 100, mkC 7 103 80 100,
   mkC 8 103 80 100, mkC 9 103 80 100, mkC 10 103 80 100, mkC 11 103 80 100,
   mkC 12 103 80 100, mkC 13 103 80 100, mkC 14 103 80 100, mkC 15 103 80 100,
   mkC 16 103 80 100, mkC 17 103 80 100, mkC 18 103 80 100, mkC 19 103 80 100,
   mkC 20 103 80 100, mkC 21 95 85 90]

/-- 22 malformed 4H candles (structure lows of 1000 above the highs of
103) that still trigger a bullish break detection, producing a negative
impulse size. -/
def badC4 : List Candle :=
  [mkC 0 103 1000 100, mkC 1 103 1000 100, mkC 2 103 1000 100, mkC 3 103 1000 100,
   mkC 4 103 1000 100, mkC 5 103 1000 100, mkC 6 103 1000 100, mkC 7 103 1000 100,
   mkC 8 103 1000 100, mkC 9 103 1000 100, mkC 10 103 1000 100, mkC 11 103 1000 100,
   mkC 12 103 1000 100, mkC 13 103 1000 100, mkC 14 103 1000 100, mkC 15 103 1000 100,
   mkC 16 103 1000 100, mkC 17 103 1000 100, mkC 18 103 1000 100, mkC 19 103 1000 100,
   mkC 20 103 1000 102.5, mkC 21 104 100 104]

/-- The state after one `analyze` call on the full break-and-confirm
scenario. -/
def s1big : StrategyState := stepState initialState ⟨bigC4, bigC5, cfg0, 0⟩

/-! ## Structural lemmas about one `analyze` call -/

theorem pipelineBase_entryProposed (s : StrategyState) (c4 c5 : List Candle)
    (i : Snapshot) : (pipelineBase s c4 c5 i).entryProposed = s.entryProposed := rfl

theorem pipelineBase_entryPrice (s : StrategyState) (c4 c5 : List Candle)
    (i : Snapshot) : (pipelineBase s c4 c5 i).entryPrice = s.entryPrice := rfl

theorem calcEntry_trend4H (b : BOS) (s : StrategyState) :
    (calculateEntryZone5M b s).trend4H = s.trend4H := by
  rcases b with ⟨d, t, bl, imp, ts⟩; cases t <;> rfl

theorem calcEntry_bos4H (b : BOS) (s : StrategyState) :
    (calculateEntryZone5M b s).bos4H = s.bos4H := by
  rcases b with ⟨d, t, bl, imp, ts⟩; cases t <;> rfl

theorem calcEntry_zone (b : BOS) (s : StrategyState) :
    (calculateEntryZone5M b s).retracementZone4H = s.retracementZone4H := by
  rcases b with ⟨d, t, bl, imp, ts⟩; cases t <;> rfl

theorem calcEntry_inZone (b : BOS) (s : StrategyState) :
    (calculateEntryZone5M b s).inRetracementZone = s.inRetracementZone := by
  rcases b with ⟨d, t, bl, imp, ts⟩; cases t <;> rfl

theorem calcEntry_bos5M (b : BOS) (s : StrategyState) :
    (calculateEntryZone5M b s).bos5M = s.bos5M := by
  rcases b with ⟨d, t, bl, imp, ts⟩; cases t <;> rfl

theorem calcEntry_entryProposed (b : BOS) (s : StrategyState) :
    (calculateEntryZone5M b s).entryProposed = true := by
  rcases b with ⟨d, t, bl, imp, ts⟩; cases t <;> rfl

theorem calcEntry_prices_set (b : BOS) (s : StrategyState) :
    (calculateEntryZone5M b s).entryPrice ≠ none ∧
    (calculateEntryZone5M b s).stopLoss ≠ none ∧
    (calculateEntryZone5M b s).takeProfit ≠ none := by
  rcases b with ⟨d, t, bl, imp, ts⟩
  cases t <;> exact ⟨Option.some_ne_none _, Option.some_ne_none _, Option.some_ne_none _⟩

theorem applyEntry_trend4H (s : StrategyState) :
    (applyEntry s).trend4H = s.trend4H := by
  unfold applyEntry
  rcases s with ⟨t4, b4, z4, iz, b5, ez, ep, e, sl, tp⟩
  cases b5 with
  | none => rfl
  | some bb =>
    dsimp only
    split
    · exact calcEntry_trend4H bb _
    · rfl

theorem applyEntry_bos4H (s : StrategyState) :
    (applyEntry s).bos4H = s.bos4H := by
  unfold applyEntry
  rcases s with ⟨t4, b4, z4, iz, b5, ez, ep, e, sl, tp⟩
  cases b5 with
  | none => rfl
  | some bb =>
    dsimp only
    split
    · exact calcEntry_bos4H bb _
    · rfl

theorem applyEntry_zone (s : StrategyState) :
    (applyEntry s).retracementZone4H = s.retracementZone4H := by
  unfold applyEntry
  rcases s with ⟨t4, b4, z4, iz, b5, ez, ep, e, sl, tp⟩
  cases b5 with
  | none => rfl
  | some bb =>
    dsimp only
    split
    · exact calcEntry_zone bb _
    · rfl

theorem applyEntry_inZone (s : StrategyState) :
    (applyEntry s).inRetracementZone = s.inRetracementZone := by
  unfold applyEntry
  rcases s with ⟨t4, b4, z4, iz, b5, ez, ep, e, sl, tp⟩
  cases b5 with
  | none => rfl
  | some bb =>
    dsimp only
    split
    · exact calcEntry_inZone bb _
    · rfl

theorem applyEntry_bos5M (s : StrategyState) :
    (applyEntry s).bos5M = s.bos5M := by
  unfold applyEntry
  rcases s with ⟨t4, b4, z4, iz, b5, ez, ep, e, sl, tp⟩
  cases b5 with
  | none => rfl
  | some bb =>
    dsimp only
    split
    · exact calcEntry_bos5M bb _
    · rfl

theorem pipelineState_trend4H (s : StrategyState) (c4 c5 : List Candle) (i : Snapshot) :
    (pipelineState s c4 c5 i).trend4H = analyzeTrend4H c4 i := by
  unfold pipelineState
  rw [applyEntry_trend4H]
  rfl

theorem pipelineState_bos4H (s : StrategyState) (c4 c5 : List Candle) (i : Snapshot) :
    (pipelineState s c4 c5 i).bos4H
      = detectBOS4H c4 (analyzeTrend4H c4 i) s.bos4H := by
  unfold pipelineState
  rw [applyEntry_bos4H]
  rfl

theorem pipelineState_zone (s : StrategyState) (c4 c5 : List Candle) (i : Snapshot) :
    (pipelineState s c4 c5 i).retracementZone4H
      = applyRetracementZone (detectBOS4H c4 (analyzeTrend4H c4 i) s.bos4H)
          s.retracementZone4H := by
  unfold pipelineState
  rw [applyEntry_zone]
  rfl

theorem pipelineState_inZone (s : StrategyState) (c4 c5 : List Candle) (i : Snapshot) :
    (pipelineState s c4 c5 i).inRetracementZone
      = checkRetracementZone i.currentPrice
          (applyRetracementZone (detectBOS4H c4 (analyzeTrend4H c4 i) s.bos4H)
            s.retracementZone4H) := by
  unfold pipelineState
  rw [applyEntry_inZone]
  rfl

theorem pipelineState_bos5M (s : StrategyState) (c4 c5 : List Candle) (i : Snapshot) :
    (pipelineState s c4 c5 i).bos5M
      = (pipelineBase s c4 c5 i).bos5M := by
  unfold pipelineState
  rw [applyEntry_bos5M]

theorem computeAll_eq_none_iff (c : List Candle) (cfg : Config) :
    computeAll c cfg = none ↔ c = [] := by
  unfold computeAll
  cases c with
  | nil => simp
  | cons a l =>
    rw [List.getLast?_eq_getLast _ (by simp)]
    simp

theorem analyzeRun_snd_of_some (s : StrategyState) (c4 c5 : List Candle)
    (cfg : Config) (now : ℤ) (i4 : Snapshot)
    (h4 : computeAll c4 cfg = some i4) (h5 : computeAll c5 cfg ≠ none) :
    (analyzeRun s c4 c5 cfg now).2 = pipelineState s c4 c5 i4 := by
  unfold analyzeRun
  rw [h4]
  cases h5' : computeAll c5 cfg with
  | none => exact absurd h5' h5
  | some i5 => rfl

theorem analyzeRun_snd_of_empty (s : StrategyState) (c4 c5 : List Candle)
    (cfg : Config) (now : ℤ) (h : c4 = [] ∨ c5 = []) :
    (analyzeRun s c4 c5 cfg now).2 = s := by
  unfold analyzeRun
  rcases h with h | h
  · rw [(computeAll_eq_none_iff c4 cfg).mpr h]
  · cases h4 : computeAll c4 cfg with
    | none => rfl
    | some i4 =>
      rw [(computeAll_eq_none_iff c5 cfg).mpr h]

theorem stepState_cases (s : StrategyState) (inp : Input) :
    stepState s inp = s ∨
    ∃ i4, computeAll inp.c4 inp.cfg = some i4 ∧
      stepState s inp = pipelineState s inp.c4 inp.c5 i4 := by
  unfold stepState
  cases h4 : computeAll inp.c4 inp.cfg with
  | none =>
    left
    unfold analyzeRun
    rw [h4]
  | some i4 =>
    cases h5 : computeAll inp.c5 inp.cfg with
    | none =>
      left
      unfold analyzeRun
      rw [h4, h5]
    | some i5 =>
      right
      exact ⟨i4, rfl, analyzeRun_snd_of_some s _ _ _ _ i4 h4
        (by rw [h5]; exact Option.some_ne_none _)⟩

/-- One `analyze` call on a state with `entryProposed` set leaves the
proposal and its three price fields untouched. -/
theorem stepState_entry_frozen (s : StrategyState) (inp : Input)
    (h : s.entryProposed = true) :
    (stepState s inp).entryProposed = true ∧
    (stepState s inp).entryPrice = s.entryPrice ∧
    (stepState s inp).stopLoss = s.stopLoss ∧
    (stepState s inp).takeProfit = s.takeProfit := by
  rcases stepState_cases s inp with he | ⟨i4, h4, he⟩
  · rw [he]; exact ⟨h, rfl, rfl, rfl⟩
  · rw [he]
    unfold pipelineState applyEntry
    cases hb : (pipelineBase s inp.c4 inp.c5 i4).bos5M with
    | none => exact ⟨h, rfl, rfl, rfl⟩
    | some b5 =>
      dsimp only
      rw [if_neg]
      · exact ⟨h, rfl, rfl, rfl⟩
      · rw [pipelineBase_entryProposed, h]
        simp

/-! ## Claim theorems -/

/-- C1: once `entryProposed` is true, any sequence of further `analyze()`
calls — with arbitrary candle inputs, configurations and clock readings,
and no intervening `resetState()` — leaves `entryPrice`, `stopLoss` and
`takeProfit` (and the proposal flag itself) unchanged. -/
theorem entry_lock_in (s : StrategyState) (l : List Input)
    (h : s.entryProposed = true) :
    (runSteps s l).entryProposed = true ∧
    (runSteps s l).entryPrice = s.entryPrice ∧
    (runSteps s l).stopLoss = s.stopLoss ∧
    (runSteps s l).takeProfit = s.takeProfit := by
  induction l generalizing s with
  | nil => exact ⟨h, rfl, rfl, rfl⟩
  | cons inp rest ih =>
    obtain ⟨h1, h2, h3, h4⟩ := stepState_entry_frozen s inp h
    obtain ⟨g1, g2, g3, g4⟩ := ih (stepState s inp) h1
    refine ⟨?_, ?_, ?_, ?_⟩ <;>
      simp only [runSteps, List.foldl_cons] at *
    · exact g1
    · exact g2.trans h2
    · exact g3.trans h3
    · exact g4.trans h4

/-- Witness for C1: a state with a (vacuous) proposal keeps all three null
prices through an `analyze` call whose inputs would otherwise propose an
entry. -/
theorem entry_lock_in_witness :
    ({ initialState with entryProposed := true } : StrategyState).entryProposed = true ∧
    (runSteps { initialState with entryProposed := true }
        [⟨bigC4, bigC5, cfg0, 0⟩]).entryPrice
      = ({ initialState with entryProposed := true } : StrategyState).entryPrice ∧
    (runSteps { initialState with entryProposed := true }
        [⟨bigC4, bigC5, cfg0, 0⟩]).stopLoss
      = ({ initialState with entryProposed := true } : StrategyState).stopLoss ∧
    (runSteps { initialState with entryProposed := true }
        [⟨bigC4, bigC5, cfg0, 0⟩]).takeProfit
      = ({ initialState with entryProposed := true } : StrategyState).takeProfit := by
  have h := entry_lock_in { initialState with entryProposed := true }
    [⟨bigC4, bigC5, cfg0, 0⟩] rfl
  exact ⟨rfl, h.2.1, h.2.2.1, h.2.2.2⟩

/-- C10: `analyze()` throws on an empty higher-timeframe candle array
(`Indicators.computeAll` reads `candles[candles.length - 1].close`
unconditionally), leaving the state unmutated; likewise for an empty
lower-timeframe array — so the no-throw guarantee needs both sequences
non-empty. -/
theorem analyze_throws_on_empty (s : StrategyState) (c4 c5 : List Candle)
    (cfg : Config) (now : ℤ) :
    ((analyzeRun s [] c5 cfg now).1 = none ∧ (analyzeRun s [] c5 cfg now).2 = s) ∧
    ((analyzeRun s c4 [] cfg now).1 = none ∧ (analyzeRun s c4 [] cfg now).2 = s) := by
  refine ⟨⟨rfl, rfl⟩, ?_⟩
  unfold analyzeRun
  cases h4 : computeAll c4 cfg with
  | none => exact ⟨rfl, rfl⟩
  | some i4 => exact ⟨rfl, rfl⟩

theorem computeAll_ema200_none (c4 : List Candle) (cfg : Config) (i4 : Snapshot)
    (h : computeAll c4 cfg = some i4) (hlen : c4.length < ema200Period cfg) :
    i4.ema200 = none := by
  unfold computeAll at h
  cases hL : c4.getLast? with
  | none => rw [hL] at h; exact absurd h (by simp)
  | some lastC =>
    rw [hL] at h
    have he := congrArg Snapshot.ema200 (Option.some.inj h)
    rw [← he]
    show calculateEMA (c4.map (·.close)) (ema200Period cfg) = none
    unfold calculateEMA
    rw [if_pos (by simpa using hlen)]

theorem analyzeTrend4H_none_of_no_ema (c4 : List Candle) (i : Snapshot)
    (h : i.ema200 = none) : analyzeTrend4H c4 i = none := by
  unfold analyzeTrend4H
  rw [h]

theorem checkLongEntry_no_trend (s : StrategyState) (i : Snapshot)
    (h : s.trend4H ≠ some Trend.BULLISH) :
    checkLongEntry s i
      = some (createSignalResponse false "LONG"
          ["✗ Tendencia 4H no es alcista"] i none) := by
  unfold checkLongEntry
  rw [if_pos h]

theorem checkShortEntry_no_trend (s : StrategyState) (i : Snapshot)
    (h : s.trend4H ≠ some Trend.BEARISH) :
    checkShortEntry s i
      = some (createSignalResponse false "SHORT"
          ["✗ Tendencia 4H no es bajista"] i none) := by
  unfold checkShortEntry
  rw [if_pos h]

/-- C2: on any non-empty candle pair whose higher-timeframe sequence is
shorter than the trend-EMA lookback, `analyze()` does not throw, and both
signals are `false` with the reason list consisting exactly of the
first pipeline step's failure message (the trend check). -/
theorem short_history_degrades (s : StrategyState) (c4 c5 : List Candle)
    (cfg : Config) (now : ℤ)
    (h4 : c4 ≠ []) (h5 : c5 ≠ []) (hshort : c4.length < ema200Period cfg) :
    ∃ r : AnalyzeResult, (analyzeRun s c4 c5 cfg now).1 = some r ∧
      r.longSignal.signal = false ∧
      r.shortSignal.signal = false ∧
      r.longSignal.reasons = ["✗ Tendencia 4H no es alcista"] ∧
      r.shortSignal.reasons = ["✗ Tendencia 4H no es bajista"] := by
  cases hc4 : computeAll c4 cfg with
  | none => exact absurd ((computeAll_eq_none_iff c4 cfg).mp hc4) h4
  | some i4 =>
    cases hc5 : computeAll c5 cfg with
    | none => exact absurd ((computeAll_eq_none_iff c5 cfg).mp hc5) h5
    | some i5 =>
      have htrend : (pipelineState s c4 c5 i4).trend4H = none := by
        rw [pipelineState_trend4H]
        exact analyzeTrend4H_none_of_no_ema c4 i4
          (computeAll_ema200_none c4 cfg i4 hc4 hshort)
      unfold analyzeRun
      rw [hc4, hc5]
      simp only
      rw [checkLongEntry_no_trend _ _ (by rw [htrend]; simp),
          checkShortEntry_no_trend _ _ (by rw [htrend]; simp)]
      exact ⟨_, rfl, rfl, rfl, rfl, rfl⟩

/-- Witness for C2: a single-candle history (shorter than the default-200
EMA lookback would be, and shorter than the configured period 2). -/
theorem short_history_degrades_witness :
    ∃ r : AnalyzeResult, (analyzeRun initialState [cA] [cA] cfg0 0).1 = some r ∧
      r.longSignal.signal = false ∧
      r.shortSignal.signal = false ∧
      r.longSignal.reasons = ["✗ Tendencia 4H no es alcista"] ∧
      r.shortSignal.reasons = ["✗ Tendencia 4H no es bajista"] :=
  short_history_degrades initialState [cA] [cA] cfg0 0
    (by decide) (by decide) (by decide)

theorem detectBOS4H_idem (c4 : List Candle) (t : Option Trend) (p : Option BOS) :
    detectBOS4H c4 t (detectBOS4H c4 t p) = detectBOS4H c4 t p := by
  unfold detectBOS4H
  cases t with
  | none => rfl
  | some tt =>
    by_cases hlen : c4.length < 20 + 2
    · simp only [if_pos hlen]
    · simp only [if_neg hlen]
      cases tt <;> dsimp only <;> split <;> simp_all

theorem detectBOS5M_idem (c5 : List Candle) (t : Option Trend) (p : Option BOS) :
    detectBOS5M c5 t (detectBOS5M c5 t p) = detectBOS5M c5 t p := by
  unfold detectBOS5M
  by_cases hlen : c5.length < 10 + 2
  · simp only [if_pos hlen]
  · simp only [if_neg hlen]
    cases t with
    | none => rfl
    | some tt => cases tt <;> dsimp only <;> split <;> simp_all

theorem applyRetracementZone_idem (b : Option BOS) (z : Option Zone) :
    applyRetracementZone b (applyRetracementZone b z) = applyRetracementZone b z := by
  unfold applyRetracementZone
  cases b with
  | none => rfl
  | some bb =>
    dsimp only
    split <;> rfl

theorem StrategyState.extAll {a b : StrategyState}
    (h1 : a.trend4H = b.trend4H) (h2 : a.bos4H = b.bos4H)
    (h3 : a.retracementZone4H = b.retracementZone4H)
    (h4 : a.inRetracementZone = b.inRetracementZone)
    (h5 : a.bos5M = b.bos5M) (h6 : a.entryZone5M = b.entryZone5M)
    (h7 : a.entryProposed = b.entryProposed) (h8 : a.entryPrice = b.entryPrice)
    (h9 : a.stopLoss = b.stopLoss) (h10 : a.takeProfit = b.takeProfit) : a = b := by
  cases a; cases b
  dsimp only at h1 h2 h3 h4 h5 h6 h7 h8 h9 h10
  subst h1 h2 h3 h4 h5 h6 h7 h8 h9 h10
  rfl

theorem applyEntry_of_none (s : StrategyState) (h : s.bos5M = none) :
    applyEntry s = s := by
  unfold applyEntry
  rw [h]

theorem applyEntry_of_guard (s : StrategyState) (b5 : BOS) (h : s.bos5M = some b5)
    (hg : b5.detected = true ∧ s.entryProposed = false) :
    applyEntry s = calculateEntryZone5M b5 s := by
  unfold applyEntry
  rw [h]
  dsimp only
  rw [if_pos hg]

theorem applyEntry_of_not_guard (s : StrategyState) (b5 : BOS) (h : s.bos5M = some b5)
    (hg : ¬ (b5.detected = true ∧ s.entryProposed = false)) :
    applyEntry s = s := by
  unfold applyEntry
  rw [h]
  dsimp only
  rw [if_neg hg]

theorem applyEntry_idem (s : StrategyState) :
    applyEntry (applyEntry s) = applyEntry s := by
  cases hb : s.bos5M with
  | none => rw [applyEntry_of_none s hb, applyEntry_of_none s hb]
  | some b5 =>
    by_cases hg : b5.detected = true ∧ s.entryProposed = false
    · rw [applyEntry_of_guard s b5 hb hg]
      refine applyEntry_of_not_guard _ b5 ?_ ?_
      · rw [calcEntry_bos5M, hb]
      · rw [calcEntry_entryProposed]
        simp
    · rw [applyEntry_of_not_guard s b5 hb hg, applyEntry_of_not_guard s b5 hb hg]

theorem pipelineBase_bos5M_eq (s : StrategyState) (c4 c5 : List Candle) (i : Snapshot) :
    (pipelineBase s c4 c5 i).bos5M
      = (if (pipelineBase s c4 c5 i).inRetracementZone
          then detectBOS5M c5 (analyzeTrend4H c4 i) s.bos5M else s.bos5M) := rfl

theorem pipelineBase_inZone_pipelineState (s : StrategyState) (c4 c5 : List Candle)
    (i : Snapshot) :
    (pipelineBase s c4 c5 i).inRetracementZone
      = (pipelineState s c4 c5 i).inRetracementZone :=
  (applyEntry_inZone (pipelineBase s c4 c5 i)).symm

theorem pipelineBase_idem (s : StrategyState) (c4 c5 : List Candle) (i : Snapshot) :
    pipelineBase (pipelineState s c4 c5 i) c4 c5 i = pipelineState s c4 c5 i := by
  have ht : (pipelineState s c4 c5 i).trend4H = analyzeTrend4H c4 i :=
    pipelineState_trend4H s c4 c5 i
  have hb4 : (pipelineState s c4 c5 i).bos4H
      = detectBOS4H c4 (analyzeTrend4H c4 i) s.bos4H := pipelineState_bos4H s c4 c5 i
  have hfix : detectBOS4H c4 (analyzeTrend4H c4 i) (pipelineState s c4 c5 i).bos4H
      = (pipelineState s c4 c5 i).bos4H := by
    rw [hb4]
    exact detectBOS4H_idem c4 _ _
  have hz : (pipelineState s c4 c5 i).retracementZone4H
      = applyRetracementZone (pipelineState s c4 c5 i).bos4H s.retracementZone4H := by
    rw [hb4]
    exact pipelineState_zone s c4 c5 i
  have hzfix : applyRetracementZone (pipelineState s c4 c5 i).bos4H
      (pipelineState s c4 c5 i).retracementZone4H
      = (pipelineState s c4 c5 i).retracementZone4H := by
    rw [hz]
    exact applyRetracementZone_idem _ _
  have hiz : (pipelineState s c4 c5 i).inRetracementZone
      = checkRetracementZone i.currentPrice (pipelineState s c4 c5 i).retracementZone4H := by
    rw [hz, hb4]
    exact pipelineState_inZone s c4 c5 i
  have hb5 : (pipelineState s c4 c5 i).bos5M
      = (if (pipelineState s c4 c5 i).inRetracementZone
          then detectBOS5M c5 (analyzeTrend4H c4 i) s.bos5M else s.bos5M) := by
    rw [pipelineState_bos5M, pipelineBase_bos5M_eq, pipelineBase_inZone_pipelineState]
  refine StrategyState.extAll ?_ ?_ ?_ ?_ ?_ rfl rfl rfl rfl rfl
  · exact ht.symm
  · exact hfix
  · show applyRetracementZone
        (detectBOS4H c4 (analyzeTrend4H c4 i) (pipelineState s c4 c5 i).bos4H)
        (pipelineState s c4 c5 i).retracementZone4H
      = (pipelineState s c4 c5 i).retracementZone4H
    rw [hfix]
    exact hzfix
  · show checkRetracementZone i.currentPrice
        (applyRetracementZone
          (detectBOS4H c4 (analyzeTrend4H c4 i) (pipelineState s c4 c5 i).bos4H)
          (pipelineState s c4 c5 i).retracementZone4H)
      = (pipelineState s c4 c5 i).inRetracementZone
    rw [hfix, hzfix]
    exact hiz.symm
  · show (if checkRetracementZone i.currentPrice
          (applyRetracementZone
            (detectBOS4H c4 (analyzeTrend4H c4 i) (pipelineState s c4 c5 i).bos4H)
            (pipelineState s c4 c5 i).retracementZone4H)
        then detectBOS5M c5 (analyzeTrend4H c4 i) (pipelineState s c4 c5 i).bos5M
        else (pipelineState s c4 c5 i).bos5M)
      = (pipelineState s c4 c5 i).bos5M
    rw [hfix, hzfix, ← hiz]
    cases hcase : (pipelineState s c4 c5 i).inRetracementZone
    · rw [if_neg (by simp)]
    · rw [if_pos rfl]
      rw [hb5, hcase, if_pos rfl]
      exact detectBOS5M_idem c5 _ _

theorem pipelineState_idem (s : StrategyState) (c4 c5 : List Candle) (i : Snapshot) :
    pipelineState (pipelineState s c4 c5 i) c4 c5 i = pipelineState s c4 c5 i := by
  show applyEntry (pipelineBase (pipelineState s c4 c5 i) c4 c5 i)
      = pipelineState s c4 c5 i
  rw [pipelineBase_idem]
  show applyEntry (applyEntry (pipelineBase s c4 c5 i)) = pipelineState s c4 c5 i
  rw [applyEntry_idem]
  rfl

/-- C7 (amended): a second `analyze()` call with byte-identical candle and
config inputs, and no intervening `resetState()`, leaves the state exactly
as after the first call and returns the identical result except for the
wall-clock `timestamp` field, which reflects the second call's clock. -/
theorem analyze_idempotent (s : StrategyState) (c4 c5 : List Candle) (cfg : Config)
    (now now' : ℤ) (h : (analyzeRun s c4 c5 cfg now).1.isSome = true) :
    (analyzeRun (analyzeRun s c4 c5 cfg now).2 c4 c5 cfg now').2
      = (analyzeRun s c4 c5 cfg now).2 ∧
    (analyzeRun (analyzeRun s c4 c5 cfg now).2 c4 c5 cfg now').1
      = (analyzeRun s c4 c5 cfg now).1.map (fun r => { r with timestamp := now' }) := by
  cases hc4 : computeAll c4 cfg with
  | none =>
    unfold analyzeRun at h
    rw [hc4] at h
    simp at h
  | some i4 =>
    cases hc5 : computeAll c5 cfg with
    | none =>
      unfold analyzeRun at h
      rw [hc4, hc5] at h
      simp at h
    | some i5 =>
      have hsnd : (analyzeRun s c4 c5 cfg now).2 = pipelineState s c4 c5 i4 :=
        analyzeRun_snd_of_some s c4 c5 cfg now i4 hc4
          (by rw [hc5]; exact Option.some_ne_none _)
      cases hL : checkLongEntry (pipelineState s c4 c5 i4) i4 with
      | none =>
        unfold analyzeRun at h
        rw [hc4, hc5] at h
        dsimp only at h
        rw [hL] at h
        simp at h
      | some L =>
        cases hS : checkShortEntry (pipelineState s c4 c5 i4) i4 with
        | none =>
          unfold analyzeRun at h
          rw [hc4, hc5] at h
          dsimp only at h
          rw [hL, hS] at h
          simp at h
        | some S =>
          rw [hsnd]
          constructor
          · rw [analyzeRun_snd_of_some (pipelineState s c4 c5 i4) c4 c5 cfg now' i4 hc4
              (by rw [hc5]; exact Option.some_ne_none _)]
            exact pipelineState_idem s c4 c5 i4
          · unfold analyzeRun
            rw [hc4, hc5]
            dsimp only
            rw [pipelineState_idem, hL, hS]
            rfl

/-- Counterexample to C7 as stated: with byte-identical inputs, the two
return values differ — the source stores `new Date().toISOString()` in the
returned object, so calls at different wall-clock instants return
different values. -/
theorem analyze_not_literally_idempotent :
    ((analyzeRun initialState [cA] [cA] cfg0 0).1.isSome = true) ∧
    ((analyzeRun (analyzeRun initialState [cA] [cA] cfg0 0).2
        [cA] [cA] cfg0 1).1.isSome = true) ∧
    (analyzeRun (analyzeRun initialState [cA] [cA] cfg0 0).2 [cA] [cA] cfg0 1).1
      ≠ (analyzeRun initialState [cA] [cA] cfg0 0).1 := by
  decide

/-- Witness for the amended C7 at a concrete input. -/
theorem analyze_idempotent_witness :
    (analyzeRun (analyzeRun initialState [cA] [cA] cfg0 0).2 [cA] [cA] cfg0 5).2
      = (analyzeRun initialState [cA] [cA] cfg0 0).2 ∧
    (analyzeRun (analyzeRun initialState [cA] [cA] cfg0 0).2 [cA] [cA] cfg0 5).1
      = (analyzeRun initialState [cA] [cA] cfg0 0).1.map
          (fun r => { r with timestamp := 5 }) :=
  analyze_idempotent initialState [cA] [cA] cfg0 0 5 (by decide)

/-! ## Order facts about the swing/extremum helpers -/

theorem le_foldl_qMax (cs : List Candle) (a : Q) :
    qVal a ≤ qVal (cs.foldl (fun m x => qMax m x.high) a) := by
  induction cs generalizing a with
  | nil => exact le_refl _
  | cons x xs ih =>
    refine le_trans ?_ (ih (qMax a x.high))
    rw [qVal_qMax]
    exact le_max_left _ _

theorem mem_le_foldl_qMax (cs : List Candle) (a : Q) (c : Candle) (hc : c ∈ cs) :
    qVal c.high ≤ qVal (cs.foldl (fun m x => qMax m x.high) a) := by
  induction cs generalizing a with
  | nil => cases hc
  | cons x xs ih =>
    rcases List.mem_cons.mp hc with rfl | hmem
    · refine le_trans ?_ (le_foldl_qMax xs (qMax a c.high))
      rw [qVal_qMax]
      exact le_max_right _ _
    · exact ih (qMax a x.high) hmem

theorem mem_le_maxHighOf (l : List Candle) (c : Candle) (hc : c ∈ l) :
    qVal c.high ≤ qVal (maxHighOf l) := by
  cases l with
  | nil => cases hc
  | cons x xs =>
    unfold maxHighOf
    rcases List.mem_cons.mp hc with rfl | hmem
    · exact le_foldl_qMax xs c.high
    · exact mem_le_foldl_qMax xs x.high c hmem

theorem foldl_qMin_le (cs : List Candle) (a : Q) :
    qVal (cs.foldl (fun m x => qMin m x.low) a) ≤ qVal a := by
  induction cs generalizing a with
  | nil => exact le_refl _
  | cons x xs ih =>
    refine le_trans (ih (qMin a x.low)) ?_
    rw [qVal_qMin]
    exact min_le_left _ _

theorem foldl_qMin_le_mem (cs : List Candle) (a : Q) (c : Candle) (hc : c ∈ cs) :
    qVal (cs.foldl (fun m x => qMin m x.low) a) ≤ qVal c.low := by
  induction cs generalizing a with
  | nil => cases hc
  | cons x xs ih =>
    rcases List.mem_cons.mp hc with rfl | hmem
    · refine le_trans (foldl_qMin_le xs (qMin a c.low)) ?_
      rw [qVal_qMin]
      exact min_le_right _ _
    · exact ih (qMin a x.low) hmem

theorem minLowOf_le_mem (l : List Candle) (c : Candle) (hc : c ∈ l) :
    qVal (minLowOf l) ≤ qVal c.low := by
  cases l with
  | nil => cases hc
  | cons x xs =>
    unfold minLowOf
    rcases List.mem_cons.mp hc with rfl | hmem
    · exact foldl_qMin_le xs c.low
    · exact foldl_qMin_le_mem xs x.low c hmem

theorem foldl_qMin_attained (cs : List Candle) (a : Q) :
    cs.foldl (fun m x => qMin m x.low) a = a ∨
    ∃ c ∈ cs, cs.foldl (fun m x => qMin m x.low) a = c.low := by
  induction cs generalizing a with
  | nil => exact Or.inl rfl
  | cons x xs ih =>
    rcases ih (qMin a x.low) with h | ⟨c, hc, h⟩
    · rw [List.foldl_cons, h]
      unfold qMin
      split
      · exact Or.inl rfl
      · exact Or.inr ⟨x, List.mem_cons_self _ _, rfl⟩
    · exact Or.inr ⟨c, List.mem_cons_of_mem _ hc, h⟩

theorem foldl_qMax_attained (cs : List Candle) (a : Q) :
    cs.foldl (fun m x => qMax m x.high) a = a ∨
    ∃ c ∈ cs, cs.foldl (fun m x => qMax m x.high) a = c.high := by
  induction cs generalizing a with
  | nil => exact Or.inl rfl
  | cons x xs ih =>
    rcases ih (qMax a x.high) with h | ⟨c, hc, h⟩
    · rw [List.foldl_cons, h]
      unfold qMax
      split
      · exact Or.inr ⟨x, List.mem_cons_self _ _, rfl⟩
      · exact Or.inl rfl
    · exact Or.inr ⟨c, List.mem_cons_of_mem _ hc, h⟩

theorem minLowOf_attained (l : List Candle) (h : l ≠ []) :
    ∃ c ∈ l, minLowOf l = c.low := by
  cases l with
  | nil => exact absurd rfl h
  | cons x xs =>
    unfold minLowOf
    rcases foldl_qMin_attained xs x.low with he | ⟨c, hc, he⟩
    · exact ⟨x, List.mem_cons_self _ _, he⟩
    · exact ⟨c, List.mem_cons_of_mem _ hc, he⟩

theorem maxHighOf_attained (l : List Candle) (h : l ≠ []) :
    ∃ c ∈ l, maxHighOf l = c.high := by
  cases l with
  | nil => exact absurd rfl h
  | cons x xs =>
    unfold maxHighOf
    rcases foldl_qMax_attained xs x.high with he | ⟨c, hc, he⟩
    · exact ⟨x, List.mem_cons_self _ _, he⟩
    · exact ⟨c, List.mem_cons_of_mem _ hc, he⟩

theorem findLastSwingLow_attained (l : List Candle) (k : ℕ) (h : l ≠ []) :
    ∃ c ∈ l, findLastSwingLow l k = c.low := by
  unfold findLastSwingLow
  split
  · exact minLowOf_attained l h
  · have hinv : ∀ acc : Option Q,
        (acc = none ∨ ∃ c ∈ l, acc = some c.low) → ∀ p : ℕ × Candle, p ∈ l.enum →
        ((if k ≤ p.1 ∧ p.1 + k < l.length then
            (if (((l.take p.1).drop (p.1 - k)).all (fun c => qLe p.2.low c.low)) &&
                (((l.drop (p.1 + 1)).take k).all (fun c => qLe p.2.low c.low)) then
              match acc with
              | none => some p.2.low
              | some m => if qLt p.2.low m then some p.2.low else acc
            else acc)
          else acc) = none ∨
        ∃ c ∈ l, (if k ≤ p.1 ∧ p.1 + k < l.length then
            (if (((l.take p.1).drop (p.1 - k)).all (fun c => qLe p.2.low c.low)) &&
                (((l.drop (p.1 + 1)).take k).all (fun c => qLe p.2.low c.low)) then
              match acc with
              | none => some p.2.low
              | some m => if qLt p.2.low m then some p.2.low else acc
            else acc)
          else acc) = some c.low) := by
      intro acc hacc p hp
      have hpmem : p.2 ∈ l := by
        rw [← List.enum_map_snd l]
        exact List.mem_map_of_mem Prod.snd hp
      split
      · split
        · cases acc with
          | none => exact Or.inr ⟨p.2, hpmem, rfl⟩
          | some m =>
            dsimp only
            split
            · exact Or.inr ⟨p.2, hpmem, rfl⟩
            · exact hacc
        · exact hacc
      · exact hacc
    have hres := List.foldlRecOn l.enum _ (none : Option Q) (Or.inl rfl) hinv
    rcases hres with hnone | ⟨c, hc, he⟩
    · rw [hnone]
      exact minLowOf_attained l h
    · rw [he]
      exact ⟨c, hc, rfl⟩

theorem findLastSwingHigh_attained (l : List Candle) (k : ℕ) (h : l ≠ []) :
    ∃ c ∈ l, findLastSwingHigh l k = c.high := by
  unfold findLastSwingHigh
  split
  · exact maxHighOf_attained l h
  · have hinv : ∀ acc : Option Q,
        (acc = none ∨ ∃ c ∈ l, acc = some c.high) → ∀ p : ℕ × Candle, p ∈ l.enum →
        ((if k ≤ p.1 ∧ p.1 + k < l.length then
            (if (((l.take p.1).drop (p.1 - k)).all (fun c => qLe c.high p.2.high)) &&
                (((l.drop (p.1 + 1)).take k).all (fun c => qLe c.high p.2.high)) then
              match acc with
              | none => some p.2.high
              | some m => if qLt m p.2.high then some p.2.high else acc
            else acc)
          else acc) = none ∨
        ∃ c ∈ l, (if k ≤ p.1 ∧ p.1 + k < l.length then
            (if (((l.take p.1).drop (p.1 - k)).all (fun c => qLe c.high p.2.high)) &&
                (((l.drop (p.1 + 1)).take k).all (fun c => qLe c.high p.2.high)) then
              match acc with
              | none => some p.2.high
              | some m => if qLt m p.2.high then some p.2.high else acc
            else acc)
          else acc) = some c.high) := by
      intro acc hacc p hp
      have hpmem : p.2 ∈ l := by
        rw [← List.enum_map_snd l]
        exact List.mem_map_of_mem Prod.snd hp
      split
      · split
        · cases acc with
          | none => exact Or.inr ⟨p.2, hpmem, rfl⟩
          | some m =>
            dsimp only
            split
            · exact Or.inr ⟨p.2, hpmem, rfl⟩
            · exact hacc
        · exact hacc
      · exact hacc
    have hres := List.foldlRecOn l.enum _ (none : Option Q) (Or.inl rfl) hinv
    rcases hres with hnone | ⟨c, hc, he⟩
    · rw [hnone]
      exact maxHighOf_attained l h
    · rw [he]
      exact ⟨c, hc, rfl⟩

/-- C4 (amended): the retracement zone is only ever written in a call in
which `bos4H` ends up non-null and detected — so a non-null zone means
`bos4H` was non-null with `detected = true` at the moment the zone was
(re)computed.  (The zone may then outlive the break: a later call can null
`bos4H` while the zone persists, see the counterexample.) -/
theorem zone_change_needs_detected_break (s : StrategyState) (inp : Input)
    (h : (stepState s inp).retracementZone4H ≠ s.retracementZone4H) :
    ∃ b, (stepState s inp).bos4H = some b ∧ b.detected = true := by
  rcases stepState_cases s inp with he | ⟨i4, h4, he⟩
  · rw [he] at h
    exact absurd rfl h
  · rw [he] at h ⊢
    rw [pipelineState_zone] at h
    rw [pipelineState_bos4H]
    cases hb : detectBOS4H inp.c4 (analyzeTrend4H inp.c4 i4) s.bos4H with
    | none =>
      rw [hb] at h
      exact absurd rfl h
    | some bb =>
      rw [hb] at h
      unfold applyRetracementZone at h
      dsimp only at h
      by_cases hd : bb.detected = true
      · exact ⟨bb, rfl, hd⟩
      · rw [if_neg hd] at h
        exact absurd rfl h

/-- Counterexample to C4 as stated: a reachable state (one full
break-and-confirm call, then a call whose higher-timeframe history is a
single candle, which nulls the trend and hence `bos4H`) keeps a non-null
`retracementZone4H` while `bos4H` is null. -/
theorem zone_survives_cleared_break :
    Reachable (stepState s1big ⟨[cA], [cA], cfg0, 1⟩) ∧
    (stepState s1big ⟨[cA], [cA], cfg0, 1⟩).retracementZone4H ≠ none ∧
    (stepState s1big ⟨[cA], [cA], cfg0, 1⟩).bos4H = none := by
  refine ⟨?_, by decide, by decide⟩
  exact Reachable.step _ _ (Reachable.step _ _ Reachable.init)

/-- Witness for the amended C4: in the break-and-confirm call the zone
changes (from null) and `bos4H` is indeed non-null and detected. -/
theorem zone_change_needs_detected_break_witness :
    (stepState initialState ⟨bigC4, bigC5, cfg0, 0⟩).retracementZone4H
      ≠ initialState.retracementZone4H ∧
    ∃ b, (stepState initialState ⟨bigC4, bigC5, cfg0, 0⟩).bos4H = some b ∧
      b.detected = true :=
  ⟨by decide, zone_change_needs_detected_break initialState ⟨bigC4, bigC5, cfg0, 0⟩
    (by decide)⟩

theorem detectBOS4H_none_trend (c4 : List Candle) (p : Option BOS) :
    detectBOS4H c4 none p = none := rfl

theorem detectBOS4H_fresh (c4 : List Candle) (t : Option Trend) (p : Option BOS)
    (b : BOS) (h1 : detectBOS4H c4 t p = some b) (h2 : detectBOS4H c4 t p ≠ p) :
    t = some b.type ∧ b.detected = true := by
  cases t with
  | none => exact absurd h1 (by rw [detectBOS4H_none_trend] at h2 ⊢; exact fun hc => by simp at hc)
  | some tt =>
    unfold detectBOS4H at h1 h2
    dsimp only at h1 h2
    by_cases hlen : c4.length < 20 + 2
    · rw [if_pos hlen] at h1
      simp at h1
    · rw [if_neg hlen] at h1 h2
      cases tt with
      | BULLISH =>
        dsimp only at h1 h2
        split at h1
        next hcond =>
          have hb := Option.some.inj h1
          rw [← hb]
          exact ⟨rfl, rfl⟩
        next hcond =>
          rw [if_neg hcond] at h2
          exact absurd rfl h2
      | BEARISH =>
        dsimp only at h1 h2
        split at h1
        next hcond =>
          have hb := Option.some.inj h1
          rw [← hb]
          exact ⟨rfl, rfl⟩
        next hcond =>
          rw [if_neg hcond] at h2
          exact absurd rfl h2

/-- C5 (amended): in every reachable state `bos4H` is non-null only if
`trend4H` is non-null, and any freshly recorded break agrees in type with
the trend of the very call that recorded it.  The type match with the
*current* trend is not an invariant: a stale break of the opposite type
survives a trend flip (see the counterexample). -/
theorem break_requires_trend :
    (∀ s : StrategyState, Reachable s → s.bos4H ≠ none → s.trend4H ≠ none) ∧
    (∀ (s : StrategyState) (inp : Input) (b : BOS),
      (stepState s inp).bos4H = some b → (stepState s inp).bos4H ≠ s.bos4H →
      (stepState s inp).trend4H = some b.type) := by
  constructor
  · intro s hreach
    induction hreach with
    | init => intro h; exact absurd rfl h
    | reset s' _ => intro h; exact absurd rfl h
    | step s' inp _ ih =>
      rcases stepState_cases s' inp with he | ⟨i4, h4, he⟩
      · rw [he]; exact ih
      · rw [he]
        rw [pipelineState_bos4H, pipelineState_trend4H]
        cases ht : analyzeTrend4H inp.c4 i4 with
        | none => rw [detectBOS4H_none_trend]; intro h; exact absurd rfl h
        | some tt => intro _; simp
  · intro s inp b h1 h2
    rcases stepState_cases s inp with he | ⟨i4, h4, he⟩
    · rw [he] at h2; exact absurd rfl h2
    · rw [he] at h1 h2 ⊢
      rw [pipelineState_bos4H] at h1 h2
      rw [pipelineState_trend4H]
      exact (detectBOS4H_fresh inp.c4 _ s.bos4H b h1 h2).1

/-- Counterexample to C5 as stated: after a detect-then-flip trace the
current trend is BEARISH while the stored break is still BULLISH. -/
theorem stale_break_disagrees_with_trend :
    Reachable (stepState s1big ⟨flipC4, [cA], cfg0, 1⟩) ∧
    (stepState s1big ⟨flipC4, [cA], cfg0, 1⟩).trend4H = some Trend.BEARISH ∧
    ∃ b, (stepState s1big ⟨flipC4, [cA], cfg0, 1⟩).bos4H = some b ∧
      b.type = Trend.BULLISH := by
  refine ⟨?_, by decide, ⟨⟨true, Trend.BULLISH, 103, ⟨95, 114, 19⟩, 21⟩, by decide, rfl⟩⟩
  exact Reachable.step _ _ (Reachable.step _ _ Reachable.init)

/-- Witness for the amended C5 at the break-and-confirm state. -/
theorem break_requires_trend_witness :
    s1big.bos4H ≠ none ∧ s1big.trend4H ≠ none :=
  ⟨by decide, break_requires_trend.1 s1big
    (Reachable.step _ _ Reachable.init) (by decide)⟩

/-- C6 (amended): in every reachable state `entryProposed` implies that
`entryPrice`, `stopLoss` and `takeProfit` are all non-null; and in the call
that flips `entryProposed` from false to true, `bos5M` ends the call
non-null with `detected = true`.  The 5M break is not retained as an
invariant: a later call inside the retracement zone with a too-short
lower-timeframe history nulls `bos5M` while the proposal persists (see the
counterexample). -/
theorem proposal_has_prices :
    (∀ s : StrategyState, Reachable s → s.entryProposed = true →
      s.entryPrice ≠ none ∧ s.stopLoss ≠ none ∧ s.takeProfit ≠ none) ∧
    (∀ (s : StrategyState) (inp : Input),
      s.entryProposed = false → (stepState s inp).entryProposed = true →
      ∃ b, (stepState s inp).bos5M = some b ∧ b.detected = true) := by
  constructor
  · intro s hreach
    induction hreach with
    | init => exact fun h => absurd h (by decide)
    | reset s' _ => exact fun h => absurd h (by decide)
    | step s' inp _ ih =>
      rcases stepState_cases s' inp with he | ⟨i4, h4, he⟩
      · rw [he]; exact ih
      · rw [he]
        show (applyEntry (pipelineBase s' inp.c4 inp.c5 i4)).entryProposed = true →
          (applyEntry (pipelineBase s' inp.c4 inp.c5 i4)).entryPrice ≠ none ∧
          (applyEntry (pipelineBase s' inp.c4 inp.c5 i4)).stopLoss ≠ none ∧
          (applyEntry (pipelineBase s' inp.c4 inp.c5 i4)).takeProfit ≠ none
        cases hb : (pipelineBase s' inp.c4 inp.c5 i4).bos5M with
        | none =>
          rw [applyEntry_of_none _ hb]
          intro h
          exact ih h
        | some b5 =>
          by_cases hg : b5.detected = true ∧
              (pipelineBase s' inp.c4 inp.c5 i4).entryProposed = false
          · rw [applyEntry_of_guard _ b5 hb hg]
            intro _
            exact calcEntry_prices_set b5 _
          · rw [applyEntry_of_not_guard _ b5 hb hg]
            intro h
            exact ih h
  · intro s inp hfalse htrue
    rcases stepState_cases s inp with he | ⟨i4, h4, he⟩
    · rw [he] at htrue
      rw [hfalse] at htrue
      exact absurd htrue (by simp)
    · rw [he] at htrue ⊢
      show ∃ b, (applyEntry (pipelineBase s inp.c4 inp.c5 i4)).bos5M = some b ∧
        b.detected = true
      have htrue2 : (applyEntry (pipelineBase s inp.c4 inp.c5 i4)).entryProposed
          = true := htrue
      clear htrue
      rename' htrue2 => htrue
      cases hb : (pipelineBase s inp.c4 inp.c5 i4).bos5M with
      | none =>
        rw [applyEntry_of_none _ hb, pipelineBase_entryProposed, hfalse] at htrue
        exact absurd htrue (by simp)
      | some b5 =>
        by_cases hg : b5.detected = true ∧
            (pipelineBase s inp.c4 inp.c5 i4).entryProposed = false
        · refine ⟨b5, ?_, hg.1⟩
          rw [applyEntry_of_guard _ b5 hb hg, calcEntry_bos5M, hb]
        · rw [applyEntry_of_not_guard _ b5 hb hg, pipelineBase_entryProposed,
            hfalse] at htrue
          exact absurd htrue (by simp)

/-- Counterexample to C6 as stated: after a full break-and-confirm call, a
second call re-enters the zone with a one-candle 5M history, which nulls
`bos5M` while `entryProposed` (and the prices) persist. -/
theorem proposal_survives_cleared_5m_break :
    Reachable (stepState s1big ⟨bigC4, [cA], cfg0, 1⟩) ∧
    (stepState s1big ⟨bigC4, [cA], cfg0, 1⟩).entryProposed = true ∧
    (stepState s1big ⟨bigC4, [cA], cfg0, 1⟩).bos5M = none := by
  refine ⟨?_, by decide, by decide⟩
  exact Reachable.step _ _ (Reachable.step _ _ Reachable.init)

/-- Witness for the amended C6 at the break-and-confirm state. -/
theorem proposal_has_prices_witness :
    s1big.entryProposed = true ∧
    s1big.entryPrice ≠ none ∧ s1big.stopLoss ≠ none ∧ s1big.takeProfit ≠ none :=
  ⟨by decide, proposal_has_prices.1 s1big
    (Reachable.step _ _ Reachable.init) (by decide)⟩

/-- C8: with a BULLISH trend and at least `lookback + 2 = 22`
higher-timeframe candles, `analyze()` records a (fresh) 4H break exactly
when the current close strictly exceeds the structure window's maximum
high while the previous close does not; the recorded break is detected,
BULLISH, has the window's max high as `breakLevel` and the current
candle's high as the impulse end. -/
theorem bullish_bos4H_detection (s : StrategyState) (c4 c5 : List Candle)
    (cfg : Config) (now : ℤ)
    (h4 : c4 ≠ []) (h5 : c5 ≠ []) (hlen : 22 ≤ c4.length)
    (htrend : (analyzeRun s c4 c5 cfg now).2.trend4H = some Trend.BULLISH) :
    (qVal (maxHighOf ((c4.dropLast).drop (c4.length - (20 + 2))))
        < qVal (c4.getLastD default).close ∧
     qVal ((c4.dropLast).getLastD default).close
        ≤ qVal (maxHighOf ((c4.dropLast).drop (c4.length - (20 + 2)))) →
      (analyzeRun s c4 c5 cfg now).2.bos4H
        = some ⟨true, Trend.BULLISH,
                maxHighOf ((c4.dropLast).drop (c4.length - (20 + 2))),
                ⟨findLastSwingLow ((c4.dropLast).drop (c4.length - (20 + 2))) 5,
                 (c4.getLastD default).high,
                 qSub (c4.getLastD default).high
                   (findLastSwingLow ((c4.dropLast).drop (c4.length - (20 + 2))) 5)⟩,
                (c4.getLastD default).time⟩) ∧
    (¬ (qVal (maxHighOf ((c4.dropLast).drop (c4.length - (20 + 2))))
          < qVal (c4.getLastD default).close ∧
        qVal ((c4.dropLast).getLastD default).close
          ≤ qVal (maxHighOf ((c4.dropLast).drop (c4.length - (20 + 2))))) →
      (analyzeRun s c4 c5 cfg now).2.bos4H = s.bos4H) := by
  cases hc4 : computeAll c4 cfg with
  | none => exact absurd ((computeAll_eq_none_iff c4 cfg).mp hc4) h4
  | some i4 =>
    cases hc5 : computeAll c5 cfg with
    | none => exact absurd ((computeAll_eq_none_iff c5 cfg).mp hc5) h5
    | some i5 =>
      have hsnd : (analyzeRun s c4 c5 cfg now).2 = pipelineState s c4 c5 i4 :=
        analyzeRun_snd_of_some s c4 c5 cfg now i4 hc4
          (by rw [hc5]; exact Option.some_ne_none _)
      rw [hsnd] at htrend ⊢
      rw [pipelineState_trend4H] at htrend
      rw [pipelineState_bos4H, htrend]
      unfold detectBOS4H
      dsimp only
      rw [if_neg (by omega : ¬ c4.length < 20 + 2)]
      constructor
      · intro hc
        rw [if_pos]
        rw [Bool.and_eq_true]
        exact ⟨(qLt_iff _ _).mpr hc.1, (qLe_iff _ _).mpr hc.2⟩
      · intro hc
        rw [if_neg]
        intro hcc
        rw [Bool.and_eq_true] at hcc
        exact hc ⟨(qLt_iff _ _).mp hcc.1, (qLe_iff _ _).mp hcc.2⟩

/-- Witness for C8: the spec's concrete scenario (max structure high 103,
current close 104, previous close 102.5, break high 114, swing low 95). -/
theorem bullish_bos4H_detection_witness :
    22 ≤ bigC4.length ∧
    s1big.bos4H = some ⟨true, Trend.BULLISH, 103, ⟨95, 114, 19⟩, 21⟩ := by
  refine ⟨by decide, ?_⟩
  have h := (bullish_bos4H_detection initialState bigC4 bigC5 cfg0 0 (by decide)
    (by decide) (by decide) (by decide)).1
  have hc1 : qVal (maxHighOf ((bigC4.dropLast).drop (bigC4.length - (20 + 2))))
      < qVal (bigC4.getLastD default).close := (qLt_iff _ _).mp (by decide)
  have hc2 : qVal ((bigC4.dropLast).getLastD default).close
      ≤ qVal (maxHighOf ((bigC4.dropLast).drop (bigC4.length - (20 + 2)))) :=
    (qLe_iff _ _).mp (by decide)
  exact (h ⟨hc1, hc2⟩).trans (by decide)

theorem qVal_half : qVal (0.5 : Q) = 0.5 := by
  have h : (0.5 : Q) = qMk 5 10 := by decide
  rw [h, qVal_qMk]
  norm_num

theorem qVal_618 : qVal (0.618 : Q) = 0.618 := by
  have h : (0.618 : Q) = qMk 618 1000 := by decide
  rw [h, qVal_qMk]
  norm_num

theorem qVal_05 : qVal (0.05 : Q) = 0.05 := by
  have h : (0.05 : Q) = qMk 5 100 := by decide
  rw [h, qVal_qMk]
  norm_num

theorem qVal_two : qVal (2 : Q) = 2 := by
  have h : (2 : Q) = qMk 2 1 := by decide
  rw [h, qVal_qMk]
  norm_num

/-- C9: when an `analyze()` call proposes an entry from a confirmed 5M
break, the proposal follows the 50%/61.8% formulas: for a BULLISH impulse
`entryPrice = end − 0.5·size`, `stopLoss = (end − 0.618·size) − 0.05·size`,
`takeProfit = entryPrice + (entryPrice − stopLoss)·2`, and mirrored for
BEARISH. -/
theorem entry_proposal_formulas (s : StrategyState) (c4 c5 : List Candle)
    (cfg : Config) (now : ℤ) (b : BOS)
    (hnp : s.entryProposed = false)
    (hp : (analyzeRun s c4 c5 cfg now).2.entryProposed = true)
    (hb : (analyzeRun s c4 c5 cfg now).2.bos5M = some b) :
    (b.type = Trend.BULLISH →
      ∃ e sl tp, (analyzeRun s c4 c5 cfg now).2.entryPrice = some e ∧
        (analyzeRun s c4 c5 cfg now).2.stopLoss = some sl ∧
        (analyzeRun s c4 c5 cfg now).2.takeProfit = some tp ∧
        qVal e = qVal b.impulse.iEnd - qVal b.impulse.size * 0.5 ∧
        qVal sl = (qVal b.impulse.iEnd - qVal b.impulse.size * 0.618)
          - qVal b.impulse.size * 0.05 ∧
        qVal tp = qVal e + (qVal e - qVal sl) * 2) ∧
    (b.type = Trend.BEARISH →
      ∃ e sl tp, (analyzeRun s c4 c5 cfg now).2.entryPrice = some e ∧
        (analyzeRun s c4 c5 cfg now).2.stopLoss = some sl ∧
        (analyzeRun s c4 c5 cfg now).2.takeProfit = some tp ∧
        qVal e = qVal b.impulse.iEnd + qVal b.impulse.size * 0.5 ∧
        qVal sl = (qVal b.impulse.iEnd + qVal b.impulse.size * 0.618)
          + qVal b.impulse.size * 0.05 ∧
        qVal tp = qVal e - (qVal sl - qVal e) * 2) := by
  rcases stepState_cases s ⟨c4, c5, cfg, now⟩ with he | ⟨i4, h4, he⟩
  · replace he : (analyzeRun s c4 c5 cfg now).2 = s := he
    rw [he, hnp] at hp
    exact absurd hp (by simp)
  · replace he : (analyzeRun s c4 c5 cfg now).2 = pipelineState s c4 c5 i4 := he
    rw [he] at hp hb ⊢
    have hpp : (applyEntry (pipelineBase s c4 c5 i4)).entryProposed = true := hp
    have hbb : (applyEntry (pipelineBase s c4 c5 i4)).bos5M = some b := hb
    cases h5 : (pipelineBase s c4 c5 i4).bos5M with
    | none =>
      rw [applyEntry_of_none _ h5, pipelineBase_entryProposed, hnp] at hpp
      exact absurd hpp (by simp)
    | some b5 =>
      by_cases hg : b5.detected = true ∧ (pipelineBase s c4 c5 i4).entryProposed = false
      · have hcalc : applyEntry (pipelineBase s c4 c5 i4)
            = calculateEntryZone5M b5 (pipelineBase s c4 c5 i4) :=
          applyEntry_of_guard _ b5 h5 hg
        rw [hcalc, calcEntry_bos5M, h5] at hbb
        have hb5b : b5 = b := Option.some.inj hbb
        subst hb5b
        show _ ∧ _
        have hps : pipelineState s c4 c5 i4
            = calculateEntryZone5M b5 (pipelineBase s c4 c5 i4) := hcalc
        rcases b5 with ⟨bd, bt, bbl, bimp, bts⟩
        constructor
        · intro hbt
          dsimp only at hbt
          subst hbt
          rw [hps]
          refine ⟨_, _, _, rfl, rfl, rfl, ?_, ?_, ?_⟩ <;>
            simp only [qVal_qSub, qVal_qAdd, qVal_qMul, qVal_half, qVal_618,
              qVal_05, qVal_two]
        · intro hbt
          dsimp only at hbt
          subst hbt
          rw [hps]
          refine ⟨_, _, _, rfl, rfl, rfl, ?_, ?_, ?_⟩ <;>
            simp only [qVal_qSub, qVal_qAdd, qVal_qMul, qVal_half, qVal_618,
              qVal_05, qVal_two]
      · rw [applyEntry_of_not_guard _ b5 h5 hg, pipelineBase_entryProposed,
          hnp] at hpp
        exact absurd hpp (by simp)

/-- Witness for C9: the spec's concrete lower-timeframe impulse
`{start: 98, end: 99.5, size: 1.5}` produces `entryPrice = 98.75`,
`stopLoss = 98.498` and `takeProfit = 99.254`. -/
theorem entry_proposal_formulas_witness :
    ∃ e sl tp, s1big.entryPrice = some e ∧ s1big.stopLoss = some sl ∧
      s1big.takeProfit = some tp ∧
      qVal e = 98.75 ∧ qVal sl = 98.498 ∧ qVal tp = 99.254 := by
  have h := (entry_proposal_formulas initialState bigC4 bigC5 cfg0 0
      ⟨true, Trend.BULLISH, 99, ⟨98, qMk 199 2, qMk 3 2⟩, 11⟩
      rfl (by decide) (by decide)).1 rfl
  obtain ⟨e, sl, tp, h1, h2, h3, h4, h5, h6⟩ := h
  dsimp only at h4 h5
  refine ⟨e, sl, tp, h1, h2, h3, ?_, ?_, ?_⟩
  · rw [h4]
    simp only [qVal_qMk]
    norm_num
  · rw [h5]
    simp only [qVal_qMk]
    norm_num
  · rw [h6, h4, h5]
    simp only [qVal_qMk]
    norm_num

theorem getLastD_mem {α : Type} (l : List α) (d : α) (h : l ≠ []) :
    l.getLastD d ∈ l := by
  rw [List.getLastD_eq_getLast?, List.getLast?_eq_getLast l h]
  exact List.getLast_mem h

theorem window_mem (c4 : List Candle) (c : Candle)
    (hc : c ∈ (c4.dropLast).drop (c4.length - (20 + 2))) : c ∈ c4 :=
  List.Sublist.mem hc
    ((List.drop_sublist _ _).trans (List.dropLast_sublist c4))

theorem window_ne_nil (c4 : List Candle) (h : 22 ≤ c4.length) :
    (c4.dropLast).drop (c4.length - (20 + 2)) ≠ [] := by
  intro hnil
  have hlen := congrArg List.length hnil
  simp [List.length_drop, List.length_dropLast] at hlen
  omega

theorem c4_ne_nil_of_len (c4 : List Candle) (h : 22 ≤ c4.length) : c4 ≠ [] := by
  intro hnil
  rw [hnil] at h
  simp at h

theorem detectBOS4H_fresh_inv (c4 : List Candle) (t : Option Trend) (b : BOS)
    (h : detectBOS4H c4 t none = some b) :
    22 ≤ c4.length ∧ b.detected = true ∧
    ((b.type = Trend.BULLISH ∧
      b.impulse.start = findLastSwingLow ((c4.dropLast).drop (c4.length - (20 + 2))) 5 ∧
      b.impulse.iEnd = (c4.getLastD default).high ∧
      b.impulse.size = qSub (c4.getLastD default).high
        (findLastSwingLow ((c4.dropLast).drop (c4.length - (20 + 2))) 5) ∧
      qLt (maxHighOf ((c4.dropLast).drop (c4.length - (20 + 2))))
        (c4.getLastD default).close = true) ∨
     (b.type = Trend.BEARISH ∧
      b.impulse.start = findLastSwingHigh ((c4.dropLast).drop (c4.length - (20 + 2))) 5 ∧
      b.impulse.iEnd = (c4.getLastD default).low ∧
      b.impulse.size = qSub
        (findLastSwingHigh ((c4.dropLast).drop (c4.length - (20 + 2))) 5)
        (c4.getLastD default).low ∧
      qLt (c4.getLastD default).close
        (minLowOf ((c4.dropLast).drop (c4.length - (20 + 2)))) = true)) := by
  cases t with
  | none => rw [detectBOS4H_none_trend] at h; exact absurd h (by simp)
  | some tt =>
    unfold detectBOS4H at h
    dsimp only at h
    by_cases hlen : c4.length < 20 + 2
    · rw [if_pos hlen] at h
      simp at h
    · rw [if_neg hlen] at h
      refine ⟨by omega, ?_⟩
      cases tt with
      | BULLISH =>
        dsimp only at h
        split at h
        next hcond =>
          have hb := (Option.some.inj h).symm
          subst hb
          rw [Bool.and_eq_true] at hcond
          exact ⟨rfl, Or.inl ⟨rfl, rfl, rfl, rfl, hcond.1⟩⟩
        next hcond => simp at h
      | BEARISH =>
        dsimp only at h
        split at h
        next hcond =>
          have hb := (Option.some.inj h).symm
          subst hb
          rw [Bool.and_eq_true] at hcond
          exact ⟨rfl, Or.inr ⟨rfl, rfl, rfl, rfl, hcond.1⟩⟩
        next hcond => simp at h

/-- C3 (amended): provided every higher-timeframe candle is well-formed
(`low ≤ close ≤ high`), a break freshly detected by an `analyze()` call
yields, in that same call, a retracement zone with `low < high`, both
bounds strictly between the impulse's endpoints, and exactly the
`[end − 0.618·size, end − 0.5·size]` (BULLISH) /
`[end + 0.5·size, end + 0.618·size]` (BEARISH) formulas.  Without the
well-formedness hypothesis the claim is false: malformed candles give a
negative impulse size and an inverted zone (see the counterexample). -/
theorem retracement_zone_ordering (s : StrategyState) (c4 c5 : List Candle)
    (cfg : Config) (now : ℤ) (b : BOS)
    (hwf : ∀ c ∈ c4, qVal c.low ≤ qVal c.close ∧ qVal c.close ≤ qVal c.high)
    (hprev : s.bos4H = none)
    (hdet : (analyzeRun s c4 c5 cfg now).2.bos4H = some b) :
    ∃ z, (analyzeRun s c4 c5 cfg now).2.retracementZone4H = some z ∧
      qVal z.low < qVal z.high ∧
      min (qVal b.impulse.start) (qVal b.impulse.iEnd) < qVal z.low ∧
      qVal z.high < max (qVal b.impulse.start) (qVal b.impulse.iEnd) ∧
      (b.type = Trend.BULLISH →
        qVal z.low = qVal b.impulse.iEnd - qVal b.impulse.size * 0.618 ∧
        qVal z.high = qVal b.impulse.iEnd - qVal b.impulse.size * 0.5) ∧
      (b.type = Trend.BEARISH →
        qVal z.low = qVal b.impulse.iEnd + qVal b.impulse.size * 0.5 ∧
        qVal z.high = qVal b.impulse.iEnd + qVal b.impulse.size * 0.618) := by
  rcases stepState_cases s ⟨c4, c5, cfg, now⟩ with he | ⟨i4, h4, he⟩
  · replace he : (analyzeRun s c4 c5 cfg now).2 = s := he
    rw [he, hprev] at hdet
    exact absurd hdet (by simp)
  · replace he : (analyzeRun s c4 c5 cfg now).2 = pipelineState s c4 c5 i4 := he
    rw [he] at hdet ⊢
    rw [pipelineState_bos4H, hprev] at hdet
    obtain ⟨hlen, hdetd, hcases⟩ := detectBOS4H_fresh_inv c4 _ b hdet
    rw [pipelineState_zone, hprev, hdet]
    unfold applyRetracementZone
    dsimp only
    rw [if_pos hdetd]
    have hwnil := window_ne_nil c4 hlen
    have hcnil := c4_ne_nil_of_len c4 hlen
    have hcur : c4.getLastD default ∈ c4 := getLastD_mem c4 default hcnil
    obtain ⟨hcl, hch⟩ := hwf _ hcur
    rcases hcases with ⟨hbt, hst, hie, hsz, hcond⟩ | ⟨hbt, hst, hie, hsz, hcond⟩
    · obtain ⟨cw, hcwmem, hcw⟩ :=
        findLastSwingLow_attained ((c4.dropLast).drop (c4.length - (20 + 2))) 5 hwnil
      obtain ⟨hcwl, hcwh⟩ := hwf _ (window_mem c4 cw hcwmem)
      have hmax := mem_le_maxHighOf ((c4.dropLast).drop (c4.length - (20 + 2))) cw hcwmem
      have hcondq := (qLt_iff _ _).mp hcond
      have hstart_lt : qVal b.impulse.start < qVal b.impulse.iEnd := by
        rw [hst, hcw, hie]
        calc qVal cw.low ≤ qVal cw.close := hcwl
          _ ≤ qVal cw.high := hcwh
          _ ≤ qVal (maxHighOf ((c4.dropLast).drop (c4.length - (20 + 2)))) := hmax
          _ < qVal (c4.getLastD default).close := hcondq
          _ ≤ qVal (c4.getLastD default).high := hch
      have hsizev : qVal b.impulse.size = qVal b.impulse.iEnd - qVal b.impulse.start := by
        rw [hsz, qVal_qSub, hie, hst]
      have hzeq : calculateRetracementZone4H b
          = ⟨qSub b.impulse.iEnd (qMul b.impulse.size 0.618),
             qSub b.impulse.iEnd (qMul b.impulse.size 0.5), Trend.BULLISH⟩ := by
        unfold calculateRetracementZone4H
        rw [hbt]
      rw [hzeq]
      refine ⟨_, rfl, ?_, ?_, ?_, ?_, ?_⟩
      · dsimp only
        simp only [qVal_qSub, qVal_qMul, qVal_618, qVal_half]
        linarith
      · rw [min_eq_left (le_of_lt hstart_lt)]
        dsimp only
        simp only [qVal_qSub, qVal_qMul, qVal_618]
        linarith
      · rw [max_eq_right (le_of_lt hstart_lt)]
        dsimp only
        simp only [qVal_qSub, qVal_qMul, qVal_half]
        linarith
      · intro _
        dsimp only
        constructor
        · simp only [qVal_qSub, qVal_qMul, qVal_618]
        · simp only [qVal_qSub, qVal_qMul, qVal_half]
      · intro hbt2
        exact absurd (hbt.symm.trans hbt2) (by decide)
    · obtain ⟨cw, hcwmem, hcw⟩ :=
        findLastSwingHigh_attained ((c4.dropLast).drop (c4.length - (20 + 2))) 5 hwnil
      obtain ⟨hcwl, hcwh⟩ := hwf _ (window_mem c4 cw hcwmem)
      have hmin := minLowOf_le_mem ((c4.dropLast).drop (c4.length - (20 + 2))) cw hcwmem
      have hcondq := (qLt_iff _ _).mp hcond
      have hend_lt : qVal b.impulse.iEnd < qVal b.impulse.start := by
        rw [hst, hcw, hie]
        calc qVal (c4.getLastD default).low ≤ qVal (c4.getLastD default).close := hcl
          _ < qVal (minLowOf ((c4.dropLast).drop (c4.length - (20 + 2)))) := hcondq
          _ ≤ qVal cw.low := hmin
          _ ≤ qVal cw.close := hcwl
          _ ≤ qVal cw.high := hcwh
      have hsizev : qVal b.impulse.size = qVal b.impulse.start - qVal b.impulse.iEnd := by
        rw [hsz, qVal_qSub, hie, hst]
      have hzeq : calculateRetracementZone4H b
          = ⟨qAdd b.impulse.iEnd (qMul b.impulse.size 0.5),
             qAdd b.impulse.iEnd (qMul b.impulse.size 0.618), Trend.BEARISH⟩ := by
        unfold calculateRetracementZone4H
        rw [hbt]
      rw [hzeq]
      refine ⟨_, rfl, ?_, ?_, ?_, ?_, ?_⟩
      · dsimp only
        simp only [qVal_qAdd, qVal_qMul, qVal_618, qVal_half]
        linarith
      · rw [min_eq_right (le_of_lt hend_lt)]
        dsimp only
        simp only [qVal_qAdd, qVal_qMul, qVal_half]
        linarith
      · rw [max_eq_left (le_of_lt hend_lt)]
        dsimp only
        simp only [qVal_qAdd, qVal_qMul, qVal_618]
        linarith
      · intro hbt2
        exact absurd (hbt.symm.trans hbt2) (by decide)
      · intro _
        dsimp only
        constructor
        · simp only [qVal_qAdd, qVal_qMul, qVal_half]
        · simp only [qVal_qAdd, qVal_qMul, qVal_618]

/-- Counterexample to C3 as stated: the source never validates candles, so
a malformed history (structure lows above the highs) produces a detected
bullish break whose impulse size is negative (`104 − 1000 = −896`) and a
retracement zone with `low > high` (`657.728 > 552`). -/
theorem malformed_candles_invert_zone :
    (∃ b, (stepState initialState ⟨badC4, [cA], cfg0, 0⟩).bos4H = some b ∧
      b.detected = true) ∧
    (∃ z, (stepState initialState ⟨badC4, [cA], cfg0, 0⟩).retracementZone4H = some z ∧
      ¬ qVal z.low < qVal z.high) := by
  constructor
  · exact ⟨⟨true, Trend.BULLISH, 103, ⟨1000, 104, qMk (-896) 1⟩, 21⟩, by decide, rfl⟩
  · refine ⟨⟨qMk 82216 125, 552, Trend.BULLISH⟩, by decide, ?_⟩
    have h1 : qVal (qMk 82216 125) = 82216 / 125 := by
      rw [qVal_qMk]
      norm_num
    have h2 : qVal (552 : Q) = 552 := qVal_qOfNat 552
    dsimp only
    rw [h1, h2]
    norm_num

/-- Witness for the amended C3: on the well-formed break-and-confirm
scenario the zone is ordered and strictly inside the impulse `[95, 114]`. -/
theorem retracement_zone_ordering_witness :
    (∀ c ∈ bigC4, qVal c.low ≤ qVal c.close ∧ qVal c.close ≤ qVal c.high) ∧
    ∃ z, s1big.retracementZone4H = some z ∧ qVal z.low < qVal z.high ∧
      min (qVal (95 : Q)) (qVal (114 : Q)) < qVal z.low ∧
      qVal z.high < max (qVal (95 : Q)) (qVal (114 : Q)) := by
  have hwf : ∀ c ∈ bigC4, qVal c.low ≤ qVal c.close ∧ qVal c.close ≤ qVal c.high := by
    have hb : ∀ c ∈ bigC4, (qLe c.low c.close && qLe c.close c.high) = true := by decide
    intro c hc
    have hcb := hb c hc
    rw [Bool.and_eq_true] at hcb
    exact ⟨(qLe_iff _ _).mp hcb.1, (qLe_iff _ _).mp hcb.2⟩
  obtain ⟨z, h1, h2, h3, h4, _, _⟩ := retracement_zone_ordering initialState bigC4
    bigC5 cfg0 0 ⟨true, Trend.BULLISH, 103, ⟨95, 114, 19⟩, 21⟩ hwf rfl (by decide)
  exact ⟨hwf, z, h1, h2, h3, h4⟩
